import Mathlib

/-!
Verification model of the EfficientDet anchor-generation module
(`examples/efficientdet/anchors.py`).

Numeric model: scalars are exact rationals; a floating-point value that is
NaN or infinite is modelled as `none` in `F := Option ℚ`.  The two
irrational primitives used by the code (`np.sqrt` and `2 ** x`) are
abstracted into a `NumOps` record, so every definition stays executable;
theorems quantify over the record, and concrete witnesses use `cops`,
whose `sqrt`/`exp2` agree exactly with IEEE arithmetic on the perfect
squares and integer exponents the witnesses evaluate.  NumPy calls that
can raise (`reshape`, `tile` with negative reps, `np.repeat` with a
negative count, `np.concatenate`/`np.vstack` on an empty list) are
modelled in `Except String`.
-/

/-- Scalar of the model: `none` stands for a non-finite float (NaN/Inf). -/
abbrev F : Type := Option ℚ

/-- Abstract numeric primitives: `sqrt q` models `np.sqrt q` for `q ≥ 0`,
`exp2 q` models `2.0 ** q`. -/
structure NumOps where
  sqrt : ℚ → ℚ
  exp2 : ℚ → ℚ

def fadd : F → F → F
  | some a, some b => some (a + b)
  | _, _ => none

def fsub : F → F → F
  | some a, some b => some (a - b)
  | _, _ => none

def fmul : F → F → F
  | some a, some b => some (a * b)
  | _, _ => none

/-- Float division; a zero denominator yields a non-finite value. -/
def fdiv : F → F → F
  | some a, some b => if b = 0 then none else some (a / b)
  | _, _ => none

/-- `np.sqrt` on a finite scalar: NaN (`none`) on negative input. -/
def fsqrt (ops : NumOps) (q : ℚ) : F :=
  if q < 0 then none else some (ops.sqrt q)

/-- One anchor box: four coordinates, each possibly non-finite. -/
structure Box4 where
  x0 : F
  x1 : F
  x2 : F
  x3 : F
deriving DecidableEq, Repr

instance {ε α : Type} [DecidableEq ε] [DecidableEq α] : DecidableEq (Except ε α) := fun a b =>
  match a, b with
  | .error x, .error y =>
      if h : x = y then isTrue (by rw [h]) else isFalse (by simp [h])
  | .error _, .ok _ => isFalse (by simp)
  | .ok _, .error _ => isFalse (by simp)
  | .ok x, .ok y =>
      if h : x = y then isTrue (by rw [h]) else isFalse (by simp [h])

/-- Length of `np.arange(start, stop, step)` (for a non-zero step). -/
def arangeLen (start stop step : ℚ) : ℕ := (Int.ceil ((stop - start) / step)).toNat

/-- `np.arange(start, stop, step)`. -/
def arangeQ (start stop step : ℚ) : List ℚ :=
  (List.range (arangeLen start stop step)).map (fun (k : ℕ) => start + (k : ℚ) * step)

/-- `np.tile(l, n)` for a possibly negative integer count `n`
(negative counts raise in NumPy). -/
def tileN {α : Type} (l : List α) (n : ℤ) : Except String (List α) :=
  if n < 0 then .error "negative dimensions are not allowed"
  else .ok (List.flatten (List.replicate n.toNat l))

/-- `np.repeat(l, c)` with a non-negative count: every element repeated `c`
times in place. -/
def np_repeat {α : Type} (l : List α) (c : ℕ) : List α :=
  l.flatMap (fun a => List.replicate c a)

/-- `np.repeat(x, n)` on a scalar, for a possibly negative integer count. -/
def repeatScalar (x : ℚ) (n : ℤ) : Except String (List ℚ) :=
  if n < 0 then .error "negative dimensions are not allowed"
  else .ok (List.replicate n.toNat x)

/-- Split a list into `rows` consecutive chunks of `cols` elements. -/
def chunkRows {α : Type} : ℕ → ℕ → List α → List (List α)
  | 0, _, _ => []
  | r + 1, c, l => l.take c :: chunkRows r c (l.drop c)

/-- `np.reshape(l, (rows, -1))`: the second dimension is inferred, which
fails when `rows ≤ 0` or when `rows` does not divide the size. -/
def reshape2 {α : Type} (l : List α) (rows : ℤ) : Except String (List (List α)) :=
  if rows ≤ 0 then
    .error "cannot reshape array: non-positive leading dimension"
  else
    let r : ℕ := rows.toNat
    let cols : ℕ := l.length / r
    if r * cols = l.length then .ok (chunkRows r cols l)
    else .error "cannot reshape array: size not divisible by leading dimension"

/-- Python slice `l[a:b]`. -/
def pySlice {α : Type} (l : List α) (a b : ℕ) : List α := (l.take b).drop a

/-- Flattening of `np.concatenate(rows, axis=1)` for rows of shape
`(n, 1, 4)`: grid-point-major, row-minor. -/
def transposeJoin {α : Type} (n : ℕ) (ls : List (List α)) : List α :=
  (List.range n).flatMap (fun g => ls.filterMap (fun l => l[g]?))

/-- `np.concatenate(ls, axis=1)` followed by `reshape([-1, 4])`: fails on an
empty list or on rows of unequal length. -/
def concatReshape (ls : List (List Box4)) : Except String (List Box4) :=
  match ls with
  | [] => .error "need at least one array to concatenate"
  | l :: rest =>
      if rest.all (fun r => r.length = l.length) then
        .ok (transposeJoin l.length (l :: rest))
      else .error "all the input array dimensions must match"

/-- `np.vstack(ls)` on a list of `(·, 4)` arrays: fails on an empty list. -/
def vstackList (ls : List (List Box4)) : Except String (List Box4) :=
  match ls with
  | [] => .error "need at least one array to concatenate"
  | _ => .ok (List.flatten ls)

/-- Effectful map over `Except`, mirroring a Python `for` loop that may
raise at each iteration. -/
def mapExcept {α β : Type} (f : α → Except String β) : List α → Except String (List β)
  | [] => .ok []
  | a :: l => do
      let b ← f a
      let r ← mapExcept f l
      return b :: r

/-- One downsampling step of `compute_feature_sizes`:
`new = (old - 1) // 2 + 1` on each dimension (Python floor division). -/
def featStep (p : ℤ × ℤ) : ℤ × ℤ := ((p.1 - 1).fdiv 2 + 1, (p.2 - 1).fdiv 2 + 1)

/-- The accumulation loop of `compute_feature_sizes`. -/
def featLoop (current : ℤ × ℤ) : ℕ → List (ℤ × ℤ)
  | 0 => []
  | n + 1 => featStep current :: featLoop (featStep current) n

/-- `compute_feature_sizes(image_size, max_level)`
(`anchors.py`, lines 5-22). -/
def compute_feature_sizes (image_size : ℤ × ℤ) (max_level : ℕ) : List (ℤ × ℤ) :=
  image_size :: featLoop image_size max_level

/-- `build_features` (`anchors.py`, lines 75-93).  `feature_sizes` is the
row list of the array built by `compute_feature_sizes`; that array is 1-D
(shape `(2,)`, no `vstack` performed) exactly when it holds a single row,
i.e. when `max_level = 0`, and then the `[:, 0]` column indexing raises
`IndexError` before anything else runs. -/
def build_features (feature_sizes : List (ℤ × ℤ)) (min_level max_level : ℕ)
    (scale_aspect_ratio_combinations : ℕ) : Except String (List ℚ × List ℚ) :=
  if feature_sizes.length = 1 then
    .error "too many indices for array"
  else
    .ok (np_repeat ((pySlice feature_sizes min_level (max_level + 1)).map
           (fun p => (p.1 : ℚ))) scale_aspect_ratio_combinations,
         np_repeat ((pySlice feature_sizes min_level (max_level + 1)).map
           (fun p => (p.2 : ℚ))) scale_aspect_ratio_combinations)

/-- `build_octaves` (`anchors.py`, lines 96-110). -/
def build_octaves (num_scales : ℕ) (aspect_ratios : List ℚ) (num_levels : ℤ) :
    Except String (List (List ℚ)) := do
  let scale_octaves : List ℕ := np_repeat (List.range num_scales) aspect_ratios.length
  let tiled ← tileN scale_octaves num_levels
  reshape2 (tiled.map (fun (k : ℕ) => (k : ℚ) / (num_scales : ℚ))) num_levels

/-- `build_aspects` (`anchors.py`, lines 113-126). -/
def build_aspects (aspect_ratios : List ℚ) (num_scales : ℕ) (num_levels : ℤ) :
    Except String (List (List ℚ)) := do
  let aspect ← tileN aspect_ratios (num_scales : ℤ)
  let tiled ← tileN aspect num_levels
  reshape2 tiled num_levels

/-- `build_strides` (`anchors.py`, lines 55-72). -/
def build_strides (feature_sizes : List (ℤ × ℤ)) (features_H features_W : List ℚ)
    (num_levels : ℤ) : Except String (List (List ℚ) × List (List ℚ)) := do
  let base := feature_sizes.getD 0 (0, 0)
  let strides_y ← reshape2 (features_H.map (fun f => (base.1 : ℚ) * (1 / f))) num_levels
  let strides_x ← reshape2 (features_W.map (fun f => (base.2 : ℚ) * (1 / f))) num_levels
  return (strides_y, strides_x)

/-- `build_scales` (`anchors.py`, lines 129-144). -/
def build_scales (anchor_scale : List ℚ) (scale_aspect_ratio_combinations : ℕ)
    (num_levels : ℤ) : Except String (List (List ℚ)) :=
  reshape2 (np_repeat anchor_scale scale_aspect_ratio_combinations) num_levels

/-- `generate_configurations` (`anchors.py`, lines 25-52). -/
def generate_configurations (feature_sizes : List (ℤ × ℤ)) (min_level max_level : ℕ)
    (num_scales : ℕ) (aspect_ratios : List ℚ) (anchor_scale : List ℚ) :
    Except String ((List (List ℚ) × List (List ℚ) × List (List ℚ) × List (List ℚ) ×
      List (List ℚ)) × ℤ × ℕ) := do
  let num_levels : ℤ := (max_level : ℤ) + 1 - (min_level : ℤ)
  let scale_aspect_ratio_combinations : ℕ := num_scales * aspect_ratios.length
  let (features_H, features_W) ←
    build_features feature_sizes min_level max_level scale_aspect_ratio_combinations
  let octave_scales ← build_octaves num_scales aspect_ratios num_levels
  let aspects ← build_aspects aspect_ratios num_scales num_levels
  let (strides_y, strides_x) ← build_strides feature_sizes features_H features_W num_levels
  let anchor_scales ← build_scales anchor_scale scale_aspect_ratio_combinations num_levels
  return ((strides_y, strides_x, octave_scales, aspects, anchor_scales),
          num_levels, scale_aspect_ratio_combinations)

/-- `compute_aspect_ratio` (`anchors.py`, lines 147-158). -/
def compute_aspect_ratio (ops : NumOps) (aspect : ℚ) : F × F :=
  let aspect_x := fsqrt ops aspect
  let aspect_y := fdiv (some 1) aspect_x
  (aspect_x, aspect_y)

/-- `compute_box_coordinates` (`anchors.py`, lines 161-187).  Note the
source unpacks `W, H = image_size` although callers pass `(height, width)`. -/
def compute_box_coordinates (ops : NumOps) (stride_y stride_x octave_scale aspect
    anchor_scale : ℚ) (image_size : ℤ × ℤ) : List ℚ × List ℚ × F × F :=
  let W : ℚ := (image_size.1 : ℚ)
  let H : ℚ := (image_size.2 : ℚ)
  let base_anchor_x : ℚ := anchor_scale * stride_x * ops.exp2 octave_scale
  let base_anchor_y : ℚ := anchor_scale * stride_y * ops.exp2 octave_scale
  let ar := compute_aspect_ratio ops aspect
  let anchor_x : F := fdiv (fmul (some (base_anchor_x)) ar.1) (some 2) |> (fdiv · (some H))
  let anchor_y : F := fdiv (fmul (some (base_anchor_y)) ar.2) (some 2) |> (fdiv · (some W))
  let x := arangeQ (stride_x / 2) H stride_x
  let y := arangeQ (stride_y / 2) W stride_y
  let center_x := (List.flatten (List.replicate y.length x)).map (fun v => v / H)
  let center_y := (y.flatMap (fun v => List.replicate x.length v)).map (fun v => v / W)
  (center_x, center_y, anchor_x, anchor_y)

/-- `generate_level_boxes` (`anchors.py`, lines 190-219).  Each combination
contributes one `(num_grid_points, 1, 4)` block of corner-form boxes. -/
def generate_level_boxes (ops : NumOps) (strides_y strides_x octave_scales aspects
    anchor_scales : List ℚ) (image_size : ℤ × ℤ)
    (scale_aspect_ratio_combinations : ℕ) : List (List Box4) :=
  (List.range scale_aspect_ratio_combinations).map (fun combination =>
    let bc := compute_box_coordinates ops (strides_y.getD combination 0)
      (strides_x.getD combination 0) (octave_scales.getD combination 0)
      (aspects.getD combination 0) (anchor_scales.getD combination 0) image_size
    let center_x := bc.1
    let center_y := bc.2.1
    let anchor_x := bc.2.2.1
    let anchor_y := bc.2.2.2
    (center_x.zip center_y).map (fun p =>
      Box4.mk (fsub (some p.1) anchor_x) (fsub (some p.2) anchor_y)
        (fadd (some p.1) anchor_x) (fadd (some p.2) anchor_y)))

/-- `generate_anchors` (`anchors.py`, lines 222-252). -/
def generate_anchors (ops : NumOps) (feature_sizes : List (ℤ × ℤ))
    (min_level max_level num_scales : ℕ) (aspect_ratios : List ℚ)
    (image_size : ℤ × ℤ) (anchor_scales : List ℚ) : Except String (List Box4) := do
  let configuration ← generate_configurations feature_sizes min_level max_level
    num_scales aspect_ratios anchor_scales
  let (cfg, num_levels, scale_aspect_ratio_combinations) := configuration
  let (strides_y, strides_x, octave_scales, aspects, anchor_scales') := cfg
  let boxes_all ← mapExcept (fun level =>
      concatReshape (generate_level_boxes ops (strides_y.getD level [])
        (strides_x.getD level []) (octave_scales.getD level [])
        (aspects.getD level []) (anchor_scales'.getD level []) image_size
        scale_aspect_ratio_combinations))
    (List.range num_levels.toNat)
  vstackList boxes_all

/-- Modelled from the spec: `paz.backend.boxes.to_center_form` is imported
from the `paz` package, whose source is not under `src/`; the spec states
the final output is converted "from corner-form to center-form
(cx, cy, w, h)", so each box `(m0, m1, M0, M1)` becomes
`((m0+M0)/2, (m1+M1)/2, M0-m0, M1-m1)`. -/
def to_center_form (boxes : List Box4) : List Box4 :=
  boxes.map (fun b =>
    Box4.mk (fdiv (fadd b.x0 b.x2) (some 2)) (fdiv (fadd b.x1 b.x3) (some 2))
      (fsub b.x2 b.x0) (fsub b.x3 b.x1))

/-- Modelled from the spec: the inverse conversion (center-form back to
corner-form) used by the spec's round-trip property; a center-form box
`(cx, cy, w, h)` becomes `(cx-w/2, cy-h/2, cx+w/2, cy+h/2)`. -/
def to_corner_form (boxes : List Box4) : List Box4 :=
  boxes.map (fun b =>
    Box4.mk (fsub b.x0 (fdiv b.x2 (some 2))) (fsub b.x1 (fdiv b.x3 (some 2)))
      (fadd b.x0 (fdiv b.x2 (some 2))) (fadd b.x1 (fdiv b.x3 (some 2))))

/-- `build_prior_boxes` (`anchors.py`, lines 255-276). -/
def build_prior_boxes (ops : NumOps) (min_level max_level num_scales : ℕ)
    (aspect_ratios : List ℚ) (anchor_scale : ℚ) (image_size : ℤ × ℤ) :
    Except String (List Box4) := do
  let anchor_scales ← repeatScalar anchor_scale ((max_level : ℤ) - (min_level : ℤ) + 1)
  let feature_sizes := compute_feature_sizes image_size max_level
  let prior_boxes ← generate_anchors ops feature_sizes min_level max_level num_scales
    aspect_ratios image_size anchor_scales
  return to_center_form prior_boxes

/-- Feature size at pyramid level `l`: `l`-fold downsampling of the image. -/
def featIter (p : ℤ × ℤ) : ℕ → ℤ × ℤ
  | 0 => p
  | n + 1 => featStep (featIter p n)

/-- Normalized half-width of the anchor for one parameter combination, in
the form stated by the spec (`none` exactly when `np.sqrt` sees a negative
aspect); `Hd` is the second image-size component. -/
def cfAnchorX (ops : NumOps) (aspect octave_scale anchor_scale stride_x Hd : ℚ) : F :=
  if aspect < 0 then none
  else some (anchor_scale * stride_x * ops.exp2 octave_scale * ops.sqrt aspect / 2 / Hd)

/-- Normalized half-height; additionally `none` when `1 / sqrt aspect`
divides by zero.  `Wd` is the first image-size component. -/
def cfAnchorY (ops : NumOps) (aspect octave_scale anchor_scale stride_y Wd : ℚ) : F :=
  if aspect < 0 then none
  else if ops.sqrt aspect = 0 then none
  else some (anchor_scale * stride_y * ops.exp2 octave_scale * (1 / ops.sqrt aspect) / 2 / Wd)

/-- Replace the payload of a possibly non-finite value: the center of a box
whose half-extent is NaN is itself NaN after the center-form conversion. -/
def onSome (e : F) (q : ℚ) : F := e.map (fun _ => q)

/-- Closed form of the full anchor set, written exactly in the order the
spec claims: level-major, then grid-position-major (y-row-major), then
combination-minor with the combination index scale-major. -/
def priorBoxesSpec (ops : NumOps) (min_level max_level num_scales : ℕ)
    (aspect_ratios : List ℚ) (anchor_scale : ℚ) (Hi Wi : ℤ) : List Box4 :=
  (List.range (max_level + 1 - min_level)).flatMap (fun i =>
    let f := featIter (Hi, Wi) (min_level + i)
    let sy : ℚ := (Hi : ℚ) / (f.1 : ℚ)
    let sx : ℚ := (Wi : ℚ) / (f.2 : ℚ)
    (List.range f.1.toNat).flatMap (fun gy =>
      (List.range f.2.toNat).flatMap (fun gx =>
        (List.range num_scales).flatMap (fun k =>
          aspect_ratios.map (fun a =>
            let oct : ℚ := (k : ℚ) / (num_scales : ℚ)
            let ax := cfAnchorX ops a oct anchor_scale sx (Wi : ℚ)
            let ay := cfAnchorY ops a oct anchor_scale sy (Hi : ℚ)
            let cx : ℚ := (sx / 2 + (gx : ℚ) * sx) / (Wi : ℚ)
            let cy : ℚ := (sy / 2 + (gy : ℚ) * sy) / (Hi : ℚ)
            Box4.mk (onSome ax cx) (onSome ay cy)
              (ax.map (fun v => v * 2)) (ay.map (fun v => v * 2)))))))

/-- Every coordinate of every box is finite. -/
def allFinite (l : List Box4) : Bool :=
  l.all (fun b => b.x0.isSome && b.x1.isSome && b.x2.isSome && b.x3.isSome)

/-- Every coordinate of every box is non-finite (NaN/Inf). -/
def allNonFinite (l : List Box4) : Bool :=
  l.all (fun b => b.x0.isNone && b.x1.isNone && b.x2.isNone && b.x3.isNone)

/-- Largest `k ≤ bound` with `k * k ≤ n` (structural recursion, so that
concrete witnesses evaluate inside the kernel). -/
def sqrtSearch (n : ℕ) : ℕ → ℕ
  | 0 => 0
  | k + 1 => if (k + 1) * (k + 1) ≤ n then k + 1 else sqrtSearch n k

/-- Exact rational square root candidate (exact on ratios of perfect squares). -/
def qsqrt (q : ℚ) : ℚ := (sqrtSearch q.num.toNat q.num.toNat : ℚ) / (sqrtSearch q.den q.den : ℚ)

/-- Concrete numeric primitives used by witnesses: exact (hence agreeing
bit-for-bit with IEEE doubles) on perfect-square aspects and integer
octaves, positive everywhere a real square root or power of two is. -/
def cops : NumOps where
  sqrt q := if q ≤ 0 then 0 else if qsqrt q * qsqrt q = q then qsqrt q else 1
  exp2 q := if 0 ≤ q.num ∧ q.den = 1 then (2 : ℚ) ^ q.num.toNat else 1

/-! ### List infrastructure lemmas -/

theorem getD_replicate {α : Type} (a d : α) {n i : ℕ} (h : i < n) :
    (List.replicate n a).getD i d = a := by
  induction n generalizing i with
  | zero => omega
  | succ m ih =>
      cases i with
      | zero => simp [List.replicate_succ]
      | succ j => simpa [List.replicate_succ] using ih (by omega)

theorem range_flatMap_getD {α β : Type} (xs : List α) (F : α → List β) (d : α) :
    (List.range xs.length).flatMap (fun g => F (xs.getD g d)) = xs.flatMap F := by
  induction xs with
  | nil => simp
  | cons x t ih =>
      simp only [List.length_cons, List.range_succ_eq_map, List.flatMap_cons,
        List.flatMap_map, List.getD_cons_zero, List.getD_cons_succ]
      rw [ih]

theorem range_map_getD {α β : Type} (xs : List α) (g : α → β) (d : α) :
    (List.range xs.length).map (fun i => g (xs.getD i d)) = xs.map g := by
  induction xs with
  | nil => simp
  | cons x t ih =>
      simp only [List.length_cons, List.range_succ_eq_map, List.map_cons, List.map_map,
        List.getD_cons_zero]
      rw [show ((fun i => g ((x :: t).getD i d)) ∘ Nat.succ) = fun i => g (t.getD i d) from rfl]
      rw [ih]

theorem range_map_getD₂ {α β γ : Type} (xs : List α) (ys : List β) (h : α → β → γ)
    (d1 : α) (d2 : β) (hlen : ys.length = xs.length) :
    (List.range xs.length).map (fun i => h (xs.getD i d1) (ys.getD i d2)) =
      (xs.zip ys).map (fun p => h p.1 p.2) := by
  induction xs generalizing ys with
  | nil => simp
  | cons x t ih =>
      cases ys with
      | nil => simp at hlen
      | cons y s =>
          simp only [List.length_cons, List.range_succ_eq_map, List.map_cons, List.map_map,
            List.getD_cons_zero, List.zip_cons_cons]
          rw [show ((fun i => h ((x :: t).getD i d1) ((y :: s).getD i d2)) ∘ Nat.succ) =
            fun i => h (t.getD i d1) (s.getD i d2) from rfl]
          rw [ih s (by simpa using hlen)]

theorem zip_replicate_self {α β : Type} (x : α) (l : List β) :
    (List.replicate l.length x).zip l = l.map (fun b => (x, b)) := by
  induction l with
  | nil => simp
  | cons b t ih => simp [List.replicate_succ, ih]

theorem zip_self_replicate {α β : Type} (l : List α) (x : β) :
    l.zip (List.replicate l.length x) = l.map (fun a => (a, x)) := by
  induction l with
  | nil => simp
  | cons a t ih => simp [List.replicate_succ, ih]

theorem meshgrid_zip {α β : Type} (xs : List α) (ys : List β) :
    ((List.replicate ys.length xs).flatten).zip
        (ys.flatMap (fun v => List.replicate xs.length v)) =
      ys.flatMap (fun v => xs.map (fun u => (u, v))) := by
  induction ys with
  | nil => simp
  | cons v t ih =>
      simp only [List.length_cons, List.replicate_succ, List.flatten_cons, List.flatMap_cons]
      rw [List.zip_append (by simp), ih, zip_self_replicate]

theorem np_repeat_zip_flatten_replicate {α β : Type} (ks : List α) (A : List β) :
    (np_repeat ks A.length).zip ((List.replicate ks.length A).flatten) =
      ks.flatMap (fun k => A.map (fun a => (k, a))) := by
  induction ks with
  | nil => simp [np_repeat]
  | cons k t ih =>
      simp only [np_repeat, List.flatMap_cons, List.length_cons, List.replicate_succ,
        List.flatten_cons] at *
      rw [List.zip_append (by simp), ih, zip_replicate_self]

theorem chunkRows_flatten {α : Type} (L : List (List α)) (c : ℕ)
    (hall : ∀ l ∈ L, l.length = c) : chunkRows L.length c L.flatten = L := by
  induction L with
  | nil => simp [chunkRows]
  | cons l rest ih =>
      have hl : l.length = c := hall l (by simp)
      simp only [List.length_cons, List.flatten_cons, chunkRows]
      rw [← hl, List.take_left, List.drop_left, hl]
      rw [ih (fun m hm => hall m (by simp [hm]))]

theorem flatten_length_const {α : Type} (L : List (List α)) (c : ℕ)
    (hall : ∀ l ∈ L, l.length = c) : L.flatten.length = L.length * c := by
  induction L with
  | nil => simp
  | cons l rest ih =>
      simp only [List.flatten_cons, List.length_append, List.length_cons]
      rw [hall l (by simp), ih (fun m hm => hall m (by simp [hm]))]
      ring

theorem reshape2_flatten {α : Type} (L : List (List α)) (c : ℕ)
    (hL : 0 < L.length) (hall : ∀ l ∈ L, l.length = c) :
    reshape2 L.flatten (L.length : ℤ) = .ok L := by
  have hlen : L.flatten.length = L.length * c := flatten_length_const L c hall
  have hpos : ¬ ((L.length : ℤ) ≤ 0) := by omega
  simp only [reshape2, hpos, if_false, Int.toNat_natCast]
  have hdiv : L.flatten.length / L.length = c := by
    rw [hlen]; exact Nat.mul_div_cancel_left c hL
  rw [hdiv, if_pos hlen.symm, chunkRows_flatten L c hall]

/-! ### NumPy-primitive closed forms -/

theorem tileN_natCast {α : Type} (l : List α) (n : ℕ) :
    tileN l (n : ℤ) = .ok (List.flatten (List.replicate n l)) := by
  simp [tileN]

theorem np_repeat_eq_flatten {α : Type} (l : List α) (c : ℕ) :
    np_repeat l c = ((l.map (fun a => List.replicate c a)).flatten) := by
  simp [np_repeat, List.flatMap_def]

theorem map_np_repeat {α β : Type} (l : List α) (c : ℕ) (f : α → β) :
    (np_repeat l c).map f = np_repeat (l.map f) c := by
  simp [np_repeat, List.map_flatMap, List.flatMap_map, List.map_replicate]

theorem reshape2_np_repeat {α : Type} (l : List α) (c : ℕ) (hc : 0 < c)
    (hl : 0 < l.length) :
    reshape2 (np_repeat l c) (l.length : ℤ) = .ok (l.map (fun a => List.replicate c a)) := by
  rw [np_repeat_eq_flatten]
  have h := reshape2_flatten (l.map (fun a => List.replicate c a)) c
    (by simpa using hl) (by intro m hm; obtain ⟨a, _, rfl⟩ := List.mem_map.mp hm; simp)
  simpa using h

theorem reshape2_flatten_replicate {α : Type} (row : List α) (n : ℕ) (hn : 0 < n)
    (hrow : 0 < row.length) :
    reshape2 (List.flatten (List.replicate n row)) (n : ℤ) = .ok (List.replicate n row) := by
  have h := reshape2_flatten (List.replicate n row) row.length
    (by simpa using hn) (by intro m hm; rw [List.eq_of_mem_replicate hm])
  simpa using h

theorem mapExcept_ok {α β : Type} (f : α → Except String β) (g : α → β) :
    ∀ (l : List α), (∀ x ∈ l, f x = .ok (g x)) → mapExcept f l = .ok (l.map g) := by
  intro l
  induction l with
  | nil => intro _; simp [mapExcept]
  | cons a t ih =>
      intro h
      have ha := h a (by simp)
      have ht := ih (fun x hx => h x (by simp [hx]))
      simp only [mapExcept, ha, ht, List.map_cons]
      rfl

/-! ### Feature-size lemmas -/

theorem featIter_succ_shift (p : ℤ × ℤ) (n : ℕ) :
    featIter (featStep p) n = featIter p (n + 1) := by
  induction n with
  | zero => rfl
  | succ m ih => simp [featIter, ih]

theorem featLoop_eq (p : ℤ × ℤ) (n : ℕ) :
    featLoop p n = (List.range n).map (fun i => featIter p (i + 1)) := by
  induction n generalizing p with
  | zero => rfl
  | succ m ih =>
      rw [featLoop, ih (featStep p), List.range_succ_eq_map, List.map_cons, List.map_map]
      have h2 : (List.range m).map (fun i => featIter (featStep p) (i + 1)) =
          (List.range m).map ((fun i => featIter p (i + 1)) ∘ Nat.succ) := by
        apply List.map_congr_left
        intro i _
        simp only [Function.comp_apply, Nat.succ_eq_add_one]
        rw [featIter_succ_shift]
      rw [h2]
      rfl

theorem compute_feature_sizes_eq (p : ℤ × ℤ) (L : ℕ) :
    compute_feature_sizes p L = (List.range (L + 1)).map (featIter p) := by
  rw [compute_feature_sizes, featLoop_eq, List.range_succ_eq_map, List.map_cons,
    List.map_map]
  rfl

theorem length_compute_feature_sizes (p : ℤ × ℤ) (L : ℕ) :
    (compute_feature_sizes p L).length = L + 1 := by
  rw [compute_feature_sizes_eq]; simp

theorem featStep_pos {p : ℤ × ℤ} (h1 : 1 ≤ p.1) (h2 : 1 ≤ p.2) :
    1 ≤ (featStep p).1 ∧ 1 ≤ (featStep p).2 := by
  refine ⟨?_, ?_⟩
  · have h : (0 : ℤ) ≤ (p.1 - 1).fdiv 2 := Int.fdiv_nonneg (by omega) (by norm_num)
    simp only [featStep]
    omega
  · have h : (0 : ℤ) ≤ (p.2 - 1).fdiv 2 := Int.fdiv_nonneg (by omega) (by norm_num)
    simp only [featStep]
    omega

theorem featIter_pos {p : ℤ × ℤ} (h1 : 1 ≤ p.1) (h2 : 1 ≤ p.2) (n : ℕ) :
    1 ≤ (featIter p n).1 ∧ 1 ≤ (featIter p n).2 := by
  induction n with
  | zero => exact ⟨h1, h2⟩
  | succ m ih => exact featStep_pos ih.1 ih.2

/-! ### Arange and grid lemmas -/

theorem arangeLen_of_feature (D f : ℤ) (hf : 1 ≤ f) (hD : 1 ≤ D) :
    arangeLen (((D : ℚ) / (f : ℚ)) / 2) (D : ℚ) ((D : ℚ) / (f : ℚ)) = f.toNat := by
  have hD0 : (D : ℚ) ≠ 0 := by positivity
  have hf0 : (f : ℚ) ≠ 0 := by positivity
  have hquot : ((D : ℚ) - (D : ℚ) / (f : ℚ) / 2) / ((D : ℚ) / (f : ℚ)) = (f : ℚ) - 1 / 2 := by
    field_simp
    ring
  have hceil : Int.ceil ((f : ℚ) - 1 / 2) = f := by
    rw [Int.ceil_eq_iff]
    constructor
    · push_cast; linarith
    · push_cast; linarith
  rw [arangeLen, hquot, hceil]

theorem arangeQ_length (start stop step : ℚ) :
    (arangeQ start stop step).length = arangeLen start stop step := by
  simp only [arangeQ, List.length_map, List.length_range]

/-! ### Transpose / concatenate lemmas -/

theorem filterMap_getElem_maps {α β γ : Type} (cs : List γ) (xs : List β) (f : γ → β → α)
    (g : ℕ) (d : β) (hg : g < xs.length) :
    (cs.map (fun c => xs.map (f c))).filterMap (fun l => l[g]?) =
      cs.map (fun c => f c (xs.getD g d)) := by
  have hx : xs.getD g d = xs.get ⟨g, hg⟩ := by
    rw [List.getD_eq_getElem?_getD, List.getElem?_eq_getElem hg]
    rfl
  induction cs with
  | nil => simp
  | cons c t ih =>
      simp only [List.map_cons, List.filterMap_cons]
      have hmap : (xs.map (f c))[g]? = some (f c (xs.getD g d)) := by
        rw [List.getElem?_map, List.getElem?_eq_getElem hg, hx]
        rfl
      rw [hmap, ih]

theorem transposeJoin_maps {α β γ : Type} (xs : List β) (cs : List γ) (f : γ → β → α)
    (d : β) :
    transposeJoin xs.length (cs.map (fun c => xs.map (f c))) =
      xs.flatMap (fun x => cs.map (fun c => f c x)) := by
  rw [transposeJoin]
  rw [← range_flatMap_getD xs (fun x => cs.map (fun c => f c x)) d]
  rw [List.flatMap_def, List.flatMap_def]
  congr 1
  apply List.map_congr_left
  intro g hg
  exact filterMap_getElem_maps cs xs f g d (List.mem_range.mp hg)

theorem concatReshape_maps {β : Type} (m : ℕ) (hm : 0 < m) (xs : List β)
    (f : ℕ → β → Box4) :
    concatReshape ((List.range m).map (fun c => xs.map (f c))) =
      .ok (xs.flatMap (fun x => (List.range m).map (fun c => f c x))) := by
  obtain ⟨m', rfl⟩ : ∃ m', m = m' + 1 := ⟨m - 1, by omega⟩
  rw [List.range_succ_eq_map, List.map_cons]
  rw [concatReshape]
  have hall : (((List.range m').map Nat.succ).map (fun c => xs.map (f c))).all
      (fun r => r.length = (xs.map (f 0)).length) = true := by
    simp
  rw [if_pos hall]
  have hlen : (xs.map (f 0)).length = xs.length := by simp
  rw [hlen]
  have htj := transposeJoin_maps xs (List.range (m' + 1)) f
  rw [List.range_succ_eq_map, List.map_cons] at htj
  cases xs with
  | nil => simp [transposeJoin]
  | cons x t => rw [htj x]

/-! ### Builder closed forms -/

theorem np_repeat_length {α : Type} (l : List α) (c : ℕ) :
    (np_repeat l c).length = l.length * c := by
  rw [np_repeat_eq_flatten, flatten_length_const (l.map (fun a => List.replicate c a)) c
    (by intro m hm; obtain ⟨a, _, rfl⟩ := List.mem_map.mp hm; simp)]
  simp

theorem build_octaves_eq (ns : ℕ) (A : List ℚ) (n : ℕ) (hn : 0 < n)
    (hcomb : 0 < ns * A.length) :
    build_octaves ns A (n : ℤ) =
      .ok (List.replicate n
        ((np_repeat (List.range ns) A.length).map (fun (k : ℕ) => (k : ℚ) / (ns : ℚ)))) := by
  rw [build_octaves, tileN_natCast]
  show reshape2 _ _ = _
  rw [List.map_flatten, List.map_replicate]
  have h := reshape2_flatten_replicate
    ((np_repeat (List.range ns) A.length).map (fun (k : ℕ) => (k : ℚ) / (ns : ℚ))) n hn
    (by rw [List.length_map, np_repeat_length]; simpa [Nat.mul_comm] using hcomb)
  exact h

theorem build_aspects_eq (A : List ℚ) (ns n : ℕ) (hn : 0 < n)
    (hcomb : 0 < ns * A.length) :
    build_aspects A ns (n : ℤ) =
      .ok (List.replicate n (List.flatten (List.replicate ns A))) := by
  rw [build_aspects, tileN_natCast]
  show (do
    let tiled ← tileN (List.flatten (List.replicate ns A)) (n : ℤ)
    reshape2 tiled (n : ℤ)) = _
  rw [tileN_natCast]
  show reshape2 _ _ = _
  exact reshape2_flatten_replicate _ n hn
    (by rw [flatten_length_const (List.replicate ns A) A.length
          (fun m hm => by rw [List.eq_of_mem_replicate hm])]
        simpa using hcomb)

theorem build_scales_eq (l : List ℚ) (comb n : ℕ) (hc : 0 < comb)
    (hl : l.length = n) (h0 : 0 < n) :
    build_scales l comb (n : ℤ) = .ok (l.map (fun a => List.replicate comb a)) := by
  rw [build_scales, ← hl]
  exact reshape2_np_repeat l comb hc (by omega)

theorem build_strides_eq (fs : List (ℤ × ℤ)) (lH lW : List ℚ) (comb n : ℕ)
    (hc : 0 < comb) (hH : lH.length = n) (hW : lW.length = n) (h0 : 0 < n) :
    build_strides fs (np_repeat lH comb) (np_repeat lW comb) (n : ℤ) =
      .ok (lH.map (fun f => List.replicate comb (((fs.getD 0 (0, 0)).1 : ℚ) * (1 / f))),
           lW.map (fun f => List.replicate comb (((fs.getD 0 (0, 0)).2 : ℚ) * (1 / f)))) := by
  rw [build_strides]
  rw [map_np_repeat, map_np_repeat]
  have h1 := reshape2_np_repeat (lH.map (fun f => ((fs.getD 0 (0, 0)).1 : ℚ) * (1 / f))) comb
    hc (by rw [List.length_map, hH]; omega)
  have h2 := reshape2_np_repeat (lW.map (fun f => ((fs.getD 0 (0, 0)).2 : ℚ) * (1 / f))) comb
    hc (by rw [List.length_map, hW]; omega)
  rw [List.length_map, hH] at h1
  rw [List.length_map, hW] at h2
  rw [h1, h2]
  show Except.ok _ = _
  rw [List.map_map, List.map_map]
  rfl

theorem drop_range_map {α : Type} (f : ℕ → α) (m n : ℕ) :
    ((List.range n).map f).drop m = (List.range (n - m)).map (fun i => f (m + i)) := by
  apply List.ext_getElem?
  intro j
  rw [List.getElem?_drop, List.getElem?_map, List.getElem?_map]
  by_cases hj : j < n - m
  · rw [List.getElem?_range (by omega), List.getElem?_range hj]
    rfl
  · rw [List.getElem?_eq_none (by simpa using by omega),
      List.getElem?_eq_none (by simpa using by omega)]
    rfl

theorem pySlice_feature (p : ℤ × ℤ) (minL maxL : ℕ) :
    pySlice (compute_feature_sizes p maxL) minL (maxL + 1) =
      (List.range (maxL + 1 - minL)).map (fun i => featIter p (minL + i)) := by
  rw [compute_feature_sizes_eq, pySlice]
  rw [List.take_of_length_le (by simp), drop_range_map]

theorem build_features_ok (p : ℤ × ℤ) (minL maxL : ℕ) (hmax : 1 ≤ maxL) (comb : ℕ) :
    build_features (compute_feature_sizes p maxL) minL maxL comb =
      .ok (np_repeat (((List.range (maxL + 1 - minL)).map (fun i =>
             featIter p (minL + i))).map (fun q => (q.1 : ℚ))) comb,
           np_repeat (((List.range (maxL + 1 - minL)).map (fun i =>
             featIter p (minL + i))).map (fun q => (q.2 : ℚ))) comb) := by
  rw [build_features, if_neg (by rw [length_compute_feature_sizes]; omega)]
  rw [pySlice_feature]

/-! ### Configuration closed form -/

theorem except_bind_ok {α β : Type} (a : α) (f : α → Except String β) :
    (Except.ok a : Except String α) >>= f = f a := rfl

theorem except_pure_eq {α : Type} (a : α) :
    (pure a : Except String α) = .ok a := rfl

theorem generate_configurations_eq (p : ℤ × ℤ) (minL maxL ns : ℕ) (A : List ℚ)
    (l : List ℚ) (h1 : minL ≤ maxL) (hmax : 1 ≤ maxL) (hcomb : 0 < ns * A.length)
    (hl : l.length = maxL + 1 - minL) :
    generate_configurations (compute_feature_sizes p maxL) minL maxL ns A l =
      .ok ((((List.range (maxL + 1 - minL)).map (fun i =>
              List.replicate (ns * A.length)
                ((p.1 : ℚ) * (1 / ((featIter p (minL + i)).1 : ℚ))))),
            ((List.range (maxL + 1 - minL)).map (fun i =>
              List.replicate (ns * A.length)
                ((p.2 : ℚ) * (1 / ((featIter p (minL + i)).2 : ℚ))))),
            List.replicate (maxL + 1 - minL)
              ((np_repeat (List.range ns) A.length).map (fun (k : ℕ) => (k : ℚ) / (ns : ℚ))),
            List.replicate (maxL + 1 - minL) (List.flatten (List.replicate ns A)),
            l.map (fun a => List.replicate (ns * A.length) a)),
           ((maxL + 1 - minL : ℕ) : ℤ), ns * A.length) := by
  have hn : 0 < maxL + 1 - minL := by omega
  have hcast : (maxL : ℤ) + 1 - (minL : ℤ) = ((maxL + 1 - minL : ℕ) : ℤ) := by
    push_cast [Nat.cast_sub (by omega : minL ≤ maxL + 1)]
    ring
  simp only [generate_configurations]
  rw [build_features_ok p minL maxL hmax (ns * A.length), except_bind_ok]
  dsimp only
  rw [hcast]
  rw [build_octaves_eq ns A _ hn hcomb, except_bind_ok]
  rw [build_aspects_eq A ns _ hn hcomb, except_bind_ok]
  rw [build_strides_eq (compute_feature_sizes p maxL) _ _ (ns * A.length) (maxL + 1 - minL)
    hcomb (by simp) (by simp) hn]
  rw [except_bind_ok]
  rw [build_scales_eq l (ns * A.length) (maxL + 1 - minL) hcomb hl hn, except_bind_ok]
  rw [except_pure_eq, List.map_map, List.map_map, List.map_map, List.map_map]
  rfl

/-! ### Geometry closed forms -/

theorem compute_box_coordinates_eq (ops : NumOps) (sy sx oct a asc : ℚ) (Hi Wi : ℤ)
    (hW : (Wi : ℚ) ≠ 0) (hH : (Hi : ℚ) ≠ 0) :
    compute_box_coordinates ops sy sx oct a asc (Hi, Wi) =
      (((List.flatten (List.replicate (arangeLen (sy / 2) (Hi : ℚ) sy)
          (arangeQ (sx / 2) (Wi : ℚ) sx))).map (fun v => v / (Wi : ℚ))),
       ((arangeQ (sy / 2) (Hi : ℚ) sy).flatMap (fun v =>
          List.replicate (arangeLen (sx / 2) (Wi : ℚ) sx) v)).map (fun v => v / (Hi : ℚ)),
       cfAnchorX ops a oct asc sx (Wi : ℚ),
       cfAnchorY ops a oct asc sy (Hi : ℚ)) := by
  have h2 : (2 : ℚ) ≠ 0 := by norm_num
  unfold compute_box_coordinates compute_aspect_ratio
  simp only [arangeQ_length]
  by_cases ha : a < 0
  · simp only [fsqrt, if_pos ha, cfAnchorX, cfAnchorY, fmul, fdiv]
  · by_cases hs : ops.sqrt a = 0
    · simp only [fsqrt, if_neg ha, cfAnchorX, cfAnchorY, if_neg ha, if_pos hs, fmul, fdiv,
        if_neg h2, if_neg hW, if_neg hH, if_pos rfl]
    · simp only [fsqrt, if_neg ha, cfAnchorX, cfAnchorY, if_neg ha, if_neg hs, fmul, fdiv,
        if_neg h2, if_neg hW, if_neg hH]

theorem getD_range_map {α : Type} (f : ℕ → α) {n i : ℕ} (d : α) (h : i < n) :
    ((List.range n).map f).getD i d = f i := by
  rw [List.getD_eq_getElem?_getD, List.getElem?_map, List.getElem?_range h]
  rfl

theorem flatMap_congr_left {α β : Type} (l : List α) {f g : α → List β}
    (h : ∀ a ∈ l, f a = g a) : l.flatMap f = l.flatMap g := by
  rw [List.flatMap_def, List.flatMap_def]
  exact congrArg List.flatten (List.map_congr_left h)

theorem vstackList_ok (ls : List (List Box4)) (h : ls ≠ []) :
    vstackList ls = .ok (List.flatten ls) := by
  cases ls with
  | nil => exact absurd rfl h
  | cons l rest => rfl

theorem center_corner_box (cx cy : ℚ) (ax ay : F) :
    Box4.mk (fdiv (fadd (fsub (some cx) ax) (fadd (some cx) ax)) (some 2))
            (fdiv (fadd (fsub (some cy) ay) (fadd (some cy) ay)) (some 2))
            (fsub (fadd (some cx) ax) (fsub (some cx) ax))
            (fsub (fadd (some cy) ay) (fsub (some cy) ay)) =
    Box4.mk (onSome ax cx) (onSome ay cy)
      (ax.map (fun v => v * 2)) (ay.map (fun v => v * 2)) := by
  have h2 : (2 : ℚ) ≠ 0 := by norm_num
  cases ax with
  | none => cases ay with
    | none => simp [fadd, fsub, fdiv, onSome]
    | some v =>
        simp only [fadd, fsub, fdiv, onSome, if_neg h2, Box4.mk.injEq]
        refine ⟨rfl, ?_, rfl, ?_⟩
        · rw [show (cy - v + (cy + v)) / 2 = cy by ring]; rfl
        · rw [show cy + v - (cy - v) = v * 2 by ring]; rfl
  | some u => cases ay with
    | none =>
        simp only [fadd, fsub, fdiv, onSome, if_neg h2, Box4.mk.injEq]
        refine ⟨?_, rfl, ?_, rfl⟩
        · rw [show (cx - u + (cx + u)) / 2 = cx by ring]; rfl
        · rw [show cx + u - (cx - u) = u * 2 by ring]; rfl
    | some v =>
        simp only [fadd, fsub, fdiv, onSome, if_neg h2, Box4.mk.injEq]
        refine ⟨?_, ?_, ?_, ?_⟩
        · rw [show (cx - u + (cx + u)) / 2 = cx by ring]; rfl
        · rw [show (cy - v + (cy + v)) / 2 = cy by ring]; rfl
        · rw [show cx + u - (cx - u) = u * 2 by ring]; rfl
        · rw [show cy + v - (cy - v) = v * 2 by ring]; rfl

theorem combo_map_eq {γ : Type} (ns : ℕ) (A : List ℚ) (h : ℚ → ℚ → γ) :
    (List.range (ns * A.length)).map (fun c =>
        h (((np_repeat (List.range ns) A.length).map
              (fun (k : ℕ) => (k : ℚ) / (ns : ℚ))).getD c 0)
          ((List.flatten (List.replicate ns A)).getD c 0)) =
      (List.range ns).flatMap (fun k => A.map (fun a => h ((k : ℚ) / (ns : ℚ)) a)) := by
  have hoct : ((np_repeat (List.range ns) A.length).map
      (fun (k : ℕ) => (k : ℚ) / (ns : ℚ))).length = ns * A.length := by
    simp [np_repeat_length]
  have hasp : (List.flatten (List.replicate ns A)).length = ns * A.length := by
    rw [flatten_length_const _ A.length (fun m hm => by rw [List.eq_of_mem_replicate hm])]
    simp
  rw [← hoct]
  rw [range_map_getD₂ _ _ h 0 0 (by rw [hasp, hoct])]
  rw [show List.flatten (List.replicate ns A) =
    List.flatten (List.replicate (List.range ns).length A) by simp]
  rw [← List.map_id (List.flatten (List.replicate (List.range ns).length A))]
  rw [List.zip_map, np_repeat_zip_flatten_replicate (List.range ns) A]
  rw [List.map_map, List.map_flatMap]
  apply flatMap_congr_left
  intro k _
  rw [List.map_map]
  rfl

theorem grid_flatMap_eq {γ : Type} (sy sx : ℚ) (Hi Wi : ℤ) (G : ℚ × ℚ → List γ) :
    ((((List.replicate (arangeLen (sy / 2) (Hi : ℚ) sy)
          (arangeQ (sx / 2) (Wi : ℚ) sx)).flatten).map (fun v => v / (Wi : ℚ))).zip
        (((arangeQ (sy / 2) (Hi : ℚ) sy).flatMap (fun v =>
          List.replicate (arangeLen (sx / 2) (Wi : ℚ) sx) v)).map
            (fun v => v / (Hi : ℚ)))).flatMap G =
      (List.range (arangeLen (sy / 2) (Hi : ℚ) sy)).flatMap (fun gy =>
        (List.range (arangeLen (sx / 2) (Wi : ℚ) sx)).flatMap (fun gx =>
          G ((sx / 2 + (gx : ℚ) * sx) / (Wi : ℚ), (sy / 2 + (gy : ℚ) * sy) / (Hi : ℚ)))) := by
  rw [show arangeLen (sy / 2) (Hi : ℚ) sy = (arangeQ (sy / 2) (Hi : ℚ) sy).length from
    (arangeQ_length _ _ _).symm]
  rw [show arangeLen (sx / 2) (Wi : ℚ) sx = (arangeQ (sx / 2) (Wi : ℚ) sx).length from
    (arangeQ_length _ _ _).symm]
  rw [List.zip_map, meshgrid_zip, List.map_flatMap, List.flatMap_assoc]
  rw [show arangeQ (sy / 2) (Hi : ℚ) sy =
    (List.range (arangeQ (sy / 2) (Hi : ℚ) sy).length).map
      (fun (k : ℕ) => sy / 2 + (k : ℚ) * sy) by rw [arangeQ_length]; rfl]
  rw [List.flatMap_map]
  simp only [List.length_map, List.length_range]
  apply flatMap_congr_left
  intro gy _
  rw [List.map_map, List.flatMap_map]
  rw [show arangeQ (sx / 2) (Wi : ℚ) sx =
    (List.range (arangeQ (sx / 2) (Wi : ℚ) sx).length).map
      (fun (k : ℕ) => sx / 2 + (k : ℚ) * sx) by rw [arangeQ_length]; rfl]
  rw [List.flatMap_map]
  simp only [List.length_map, List.length_range]
  apply flatMap_congr_left
  intro gx _
  rfl

theorem level_concat_eq (ops : NumOps) (ns : ℕ) (A : List ℚ) (asc sy sx : ℚ) (Hi Wi : ℤ)
    (hcomb : 0 < ns * A.length) (hW : (Wi : ℚ) ≠ 0) (hH : (Hi : ℚ) ≠ 0) :
    concatReshape (generate_level_boxes ops
        (List.replicate (ns * A.length) sy) (List.replicate (ns * A.length) sx)
        ((np_repeat (List.range ns) A.length).map (fun (k : ℕ) => (k : ℚ) / (ns : ℚ)))
        (List.flatten (List.replicate ns A))
        (List.replicate (ns * A.length) asc) (Hi, Wi) (ns * A.length)) =
      .ok ((List.range (arangeLen (sy / 2) (Hi : ℚ) sy)).flatMap (fun gy =>
        (List.range (arangeLen (sx / 2) (Wi : ℚ) sx)).flatMap (fun gx =>
          (List.range ns).flatMap (fun k =>
            A.map (fun a =>
              Box4.mk
                (fsub (some ((sx / 2 + (gx : ℚ) * sx) / (Wi : ℚ)))
                  (cfAnchorX ops a ((k : ℚ) / (ns : ℚ)) asc sx (Wi : ℚ)))
                (fsub (some ((sy / 2 + (gy : ℚ) * sy) / (Hi : ℚ)))
                  (cfAnchorY ops a ((k : ℚ) / (ns : ℚ)) asc sy (Hi : ℚ)))
                (fadd (some ((sx / 2 + (gx : ℚ) * sx) / (Wi : ℚ)))
                  (cfAnchorX ops a ((k : ℚ) / (ns : ℚ)) asc sx (Wi : ℚ)))
                (fadd (some ((sy / 2 + (gy : ℚ) * sy) / (Hi : ℚ)))
                  (cfAnchorY ops a ((k : ℚ) / (ns : ℚ)) asc sy (Hi : ℚ)))))))) := by
  have hglb : generate_level_boxes ops
      (List.replicate (ns * A.length) sy) (List.replicate (ns * A.length) sx)
      ((np_repeat (List.range ns) A.length).map (fun (k : ℕ) => (k : ℚ) / (ns : ℚ)))
      (List.flatten (List.replicate ns A))
      (List.replicate (ns * A.length) asc) (Hi, Wi) (ns * A.length) =
      (List.range (ns * A.length)).map (fun c =>
        ((((List.replicate (arangeLen (sy / 2) (Hi : ℚ) sy)
            (arangeQ (sx / 2) (Wi : ℚ) sx)).flatten).map (fun v => v / (Wi : ℚ))).zip
          (((arangeQ (sy / 2) (Hi : ℚ) sy).flatMap (fun v =>
            List.replicate (arangeLen (sx / 2) (Wi : ℚ) sx) v)).map
              (fun v => v / (Hi : ℚ)))).map (fun p =>
          Box4.mk
            (fsub (some p.1) (cfAnchorX ops
              ((List.flatten (List.replicate ns A)).getD c 0)
              (((np_repeat (List.range ns) A.length).map
                (fun (k : ℕ) => (k : ℚ) / (ns : ℚ))).getD c 0) asc sx (Wi : ℚ)))
            (fsub (some p.2) (cfAnchorY ops
              ((List.flatten (List.replicate ns A)).getD c 0)
              (((np_repeat (List.range ns) A.length).map
                (fun (k : ℕ) => (k : ℚ) / (ns : ℚ))).getD c 0) asc sy (Hi : ℚ)))
            (fadd (some p.1) (cfAnchorX ops
              ((List.flatten (List.replicate ns A)).getD c 0)
              (((np_repeat (List.range ns) A.length).map
                (fun (k : ℕ) => (k : ℚ) / (ns : ℚ))).getD c 0) asc sx (Wi : ℚ)))
            (fadd (some p.2) (cfAnchorY ops
              ((List.flatten (List.replicate ns A)).getD c 0)
              (((np_repeat (List.range ns) A.length).map
                (fun (k : ℕ) => (k : ℚ) / (ns : ℚ))).getD c 0) asc sy (Hi : ℚ))))) := by
    unfold generate_level_boxes
    apply List.map_congr_left
    intro c hc
    have hc' := List.mem_range.mp hc
    rw [getD_replicate sy 0 hc', getD_replicate sx 0 hc', getD_replicate asc 0 hc']
    rw [compute_box_coordinates_eq ops sy sx _ _ asc Hi Wi hW hH]
  rw [hglb]
  rw [concatReshape_maps (ns * A.length) hcomb _ _]
  congr 1
  rw [flatMap_congr_left _ (fun p _ => combo_map_eq ns A (fun o a =>
    Box4.mk
      (fsub (some p.1) (cfAnchorX ops a o asc sx (Wi : ℚ)))
      (fsub (some p.2) (cfAnchorY ops a o asc sy (Hi : ℚ)))
      (fadd (some p.1) (cfAnchorX ops a o asc sx (Wi : ℚ)))
      (fadd (some p.2) (cfAnchorY ops a o asc sy (Hi : ℚ)))))]
  exact grid_flatMap_eq sy sx Hi Wi _

/-! ### Master closed form -/

theorem build_prior_boxes_eq (ops : NumOps) (minL maxL ns : ℕ) (A : List ℚ) (asc : ℚ)
    (Hi Wi : ℤ) (h1 : minL ≤ maxL) (hmax : 1 ≤ maxL) (h2 : 1 ≤ ns) (h3 : A ≠ [])
    (h4 : 1 ≤ Hi) (h5 : 1 ≤ Wi) :
    build_prior_boxes ops minL maxL ns A asc (Hi, Wi) =
      .ok (priorBoxesSpec ops minL maxL ns A asc Hi Wi) := by
  have hcomb : 0 < ns * A.length :=
    Nat.mul_pos (by omega) (List.length_pos.mpr h3)
  have hn : 0 < maxL + 1 - minL := by omega
  have hWpos : (0 : ℚ) < (Wi : ℚ) := by exact_mod_cast (by omega : (0 : ℤ) < Wi)
  have hHpos : (0 : ℚ) < (Hi : ℚ) := by exact_mod_cast (by omega : (0 : ℤ) < Hi)
  have hWq : (Wi : ℚ) ≠ 0 := hWpos.ne'
  have hHq : (Hi : ℚ) ≠ 0 := hHpos.ne'
  rw [build_prior_boxes]
  have hrep : repeatScalar asc ((maxL : ℤ) - (minL : ℤ) + 1) =
      .ok (List.replicate (maxL + 1 - minL) asc) := by
    rw [repeatScalar, if_neg (by omega)]
    congr 1
    congr 1
    omega
  rw [hrep, except_bind_ok]
  unfold generate_anchors
  simp only [generate_configurations_eq (Hi, Wi) minL maxL ns A
    (List.replicate (maxL + 1 - minL) asc) h1 hmax hcomb (by simp), except_bind_ok,
    Int.toNat_natCast]
  have hlevel : ∀ level ∈ List.range (maxL + 1 - minL),
      concatReshape (generate_level_boxes ops
        (((List.range (maxL + 1 - minL)).map (fun i =>
            List.replicate (ns * A.length)
              (((Hi, Wi) : ℤ × ℤ).1.cast * (1 / ((featIter (Hi, Wi) (minL + i)).1 : ℚ))))).getD
          level [])
        (((List.range (maxL + 1 - minL)).map (fun i =>
            List.replicate (ns * A.length)
              (((Hi, Wi) : ℤ × ℤ).2.cast * (1 / ((featIter (Hi, Wi) (minL + i)).2 : ℚ))))).getD
          level [])
        ((List.replicate (maxL + 1 - minL)
          ((np_repeat (List.range ns) A.length).map
            (fun (k : ℕ) => (k : ℚ) / (ns : ℚ)))).getD level [])
        ((List.replicate (maxL + 1 - minL) (List.flatten (List.replicate ns A))).getD level [])
        (((List.replicate (maxL + 1 - minL) asc).map
          (fun a => List.replicate (ns * A.length) a)).getD level [])
        (Hi, Wi) (ns * A.length)) =
      .ok ((List.range (arangeLen (((Hi : ℚ) * (1 / ((featIter (Hi, Wi) (minL + level)).1 : ℚ))) / 2)
            (Hi : ℚ) ((Hi : ℚ) * (1 / ((featIter (Hi, Wi) (minL + level)).1 : ℚ))))).flatMap (fun gy =>
        (List.range (arangeLen (((Wi : ℚ) * (1 / ((featIter (Hi, Wi) (minL + level)).2 : ℚ))) / 2)
            (Wi : ℚ) ((Wi : ℚ) * (1 / ((featIter (Hi, Wi) (minL + level)).2 : ℚ))))).flatMap (fun gx =>
          (List.range ns).flatMap (fun k =>
            A.map (fun a =>
              Box4.mk
                (fsub (some ((((Wi : ℚ) * (1 / ((featIter (Hi, Wi) (minL + level)).2 : ℚ))) / 2 +
                    (gx : ℚ) * ((Wi : ℚ) * (1 / ((featIter (Hi, Wi) (minL + level)).2 : ℚ)))) / (Wi : ℚ)))
                  (cfAnchorX ops a ((k : ℚ) / (ns : ℚ)) asc
                    ((Wi : ℚ) * (1 / ((featIter (Hi, Wi) (minL + level)).2 : ℚ))) (Wi : ℚ)))
                (fsub (some ((((Hi : ℚ) * (1 / ((featIter (Hi, Wi) (minL + level)).1 : ℚ))) / 2 +
                    (gy : ℚ) * ((Hi : ℚ) * (1 / ((featIter (Hi, Wi) (minL + level)).1 : ℚ)))) / (Hi : ℚ)))
                  (cfAnchorY ops a ((k : ℚ) / (ns : ℚ)) asc
                    ((Hi : ℚ) * (1 / ((featIter (Hi, Wi) (minL + level)).1 : ℚ))) (Hi : ℚ)))
                (fadd (some ((((Wi : ℚ) * (1 / ((featIter (Hi, Wi) (minL + level)).2 : ℚ))) / 2 +
                    (gx : ℚ) * ((Wi : ℚ) * (1 / ((featIter (Hi, Wi) (minL + level)).2 : ℚ)))) / (Wi : ℚ)))
                  (cfAnchorX ops a ((k : ℚ) / (ns : ℚ)) asc
                    ((Wi : ℚ) * (1 / ((featIter (Hi, Wi) (minL + level)).2 : ℚ))) (Wi : ℚ)))
                (fadd (some ((((Hi : ℚ) * (1 / ((featIter (Hi, Wi) (minL + level)).1 : ℚ))) / 2 +
                    (gy : ℚ) * ((Hi : ℚ) * (1 / ((featIter (Hi, Wi) (minL + level)).1 : ℚ)))) / (Hi : ℚ)))
                  (cfAnchorY ops a ((k : ℚ) / (ns : ℚ)) asc
                    ((Hi : ℚ) * (1 / ((featIter (Hi, Wi) (minL + level)).1 : ℚ))) (Hi : ℚ)))))))) := by
    intro level hlev
    have hlev' := List.mem_range.mp hlev
    rw [getD_range_map _ [] hlev', getD_range_map _ [] hlev']
    rw [getD_replicate _ [] hlev', getD_replicate _ [] hlev']
    rw [List.map_replicate, getD_replicate _ [] hlev']
    exact level_concat_eq ops ns A asc _ _ Hi Wi hcomb hWq hHq
  rw [mapExcept_ok _ _ _ hlevel, except_bind_ok]
  rw [vstackList_ok _ (by simp [List.range_eq_nil]; omega)]
  rw [except_bind_ok, except_pure_eq]
  congr 1
  rw [to_center_form, List.map_flatten, List.map_map]
  rw [priorBoxesSpec, List.flatMap_def]
  congr 1
  apply List.map_congr_left
  intro i hi
  have hfpos := featIter_pos (p := (Hi, Wi)) h4 h5 (minL + i)
  have hfH : 1 ≤ (featIter (Hi, Wi) (minL + i)).1 := hfpos.1
  have hfW : 1 ≤ (featIter (Hi, Wi) (minL + i)).2 := hfpos.2
  simp only [Function.comp_apply, mul_one_div]
  rw [arangeLen_of_feature Hi _ hfH h4, arangeLen_of_feature Wi _ hfW h5]
  rw [List.map_flatMap]
  apply flatMap_congr_left
  intro gy _
  rw [List.map_flatMap]
  apply flatMap_congr_left
  intro gx _
  rw [List.map_flatMap]
  apply flatMap_congr_left
  intro k _
  rw [List.map_map]
  apply List.map_congr_left
  intro a _
  exact center_corner_box _ _ _ _

theorem except_error_bind {α β : Type} (e : String) (f : α → Except String β) :
    (Except.error e : Except String α) >>= f = .error e := rfl

/-- C4: `compute_feature_sizes (H, W) L` returns exactly `L + 1` pairs, the
first being `(H, W)`, each next one obtained by `new = (old - 1) // 2 + 1`
(floor division) on both dimensions; in particular
`compute_feature_sizes (300, 300) 1 = [[300, 300], [150, 150]]`. -/
theorem claim_C4 :
    (∀ (Hd Wd : ℤ) (L : ℕ),
      (compute_feature_sizes (Hd, Wd) L).length = L + 1 ∧
      (compute_feature_sizes (Hd, Wd) L).getD 0 (0, 0) = (Hd, Wd) ∧
      (∀ i, i < L →
        (compute_feature_sizes (Hd, Wd) L).getD (i + 1) (0, 0) =
          ((((compute_feature_sizes (Hd, Wd) L).getD i (0, 0)).1 - 1).fdiv 2 + 1,
           (((compute_feature_sizes (Hd, Wd) L).getD i (0, 0)).2 - 1).fdiv 2 + 1))) ∧
    compute_feature_sizes (300, 300) 1 = [(300, 300), (150, 150)] := by
  constructor
  · intro Hd Wd L
    refine ⟨length_compute_feature_sizes (Hd, Wd) L, ?_, ?_⟩
    · rw [compute_feature_sizes_eq]
      rw [getD_range_map _ _ (by omega)]
      rfl
    · intro i hi
      rw [compute_feature_sizes_eq]
      rw [getD_range_map _ _ (by omega), getD_range_map _ _ (by omega)]
      rfl
  · decide

theorem claim_C4_witness :
    (compute_feature_sizes ((300 : ℤ), (300 : ℤ)) 1).getD (0 + 1) (0, 0) =
      ((((compute_feature_sizes ((300 : ℤ), (300 : ℤ)) 1).getD 0 (0, 0)).1 - 1).fdiv 2 + 1,
       (((compute_feature_sizes ((300 : ℤ), (300 : ℤ)) 1).getD 0 (0, 0)).2 - 1).fdiv 2 + 1) :=
  (claim_C4.1 300 300 1).2.2 0 (by decide)

/-- C5: whenever `max_level < min_level`, `build_prior_boxes` fails with an
error at configuration time (raised from the NumPy reshape/`np.repeat`
calls), instead of silently returning an empty anchor set. -/
theorem claim_C5 (ops : NumOps) (minL maxL ns : ℕ) (A : List ℚ) (asc : ℚ)
    (sz : ℤ × ℤ) (h : maxL < minL) :
    (build_prior_boxes ops minL maxL ns A asc sz).isOk = false := by
  rw [build_prior_boxes]
  by_cases hneg : ((maxL : ℤ) - (minL : ℤ) + 1) < 0
  · rw [repeatScalar, if_pos hneg, except_error_bind]
    rfl
  · have h0 : (maxL : ℤ) + 1 - (minL : ℤ) = 0 := by omega
    rw [repeatScalar, if_neg hneg, except_bind_ok]
    unfold generate_anchors
    cases Nat.eq_zero_or_pos maxL with
    | inl hm0 =>
        have hbf : build_features (compute_feature_sizes sz maxL) minL maxL
            (ns * A.length) = .error "too many indices for array" := by
          rw [build_features, if_pos (by rw [length_compute_feature_sizes, hm0])]
        have hcfg : generate_configurations (compute_feature_sizes sz maxL) minL maxL ns A
            (List.replicate ((maxL : ℤ) - (minL : ℤ) + 1).toNat asc) =
            .error "too many indices for array" := by
          unfold generate_configurations
          simp only [hbf, except_error_bind]
        simp only [hcfg, except_error_bind]
        rfl
    | inr hm1 =>
        have hoct : build_octaves ns A ((maxL : ℤ) + 1 - (minL : ℤ)) =
            .error "cannot reshape array: non-positive leading dimension" := by
          rw [h0, build_octaves, tileN, if_neg (by norm_num), except_bind_ok, reshape2,
            if_pos (le_refl 0)]
        have hcfg : generate_configurations (compute_feature_sizes sz maxL) minL maxL ns A
            (List.replicate ((maxL : ℤ) - (minL : ℤ) + 1).toNat asc) =
            .error "cannot reshape array: non-positive leading dimension" := by
          unfold generate_configurations
          simp only [build_features_ok sz minL maxL hm1 (ns * A.length), except_bind_ok,
            hoct, except_error_bind]
        simp only [hcfg, except_error_bind]
        rfl

theorem claim_C5_witness :
    (build_prior_boxes cops 1 0 1 [1] 1 ((16 : ℤ), 16)).isOk = false :=
  claim_C5 cops 1 0 1 [1] 1 (16, 16) (by decide)

/-- C3: `compute_box_coordinates` unpacks the image size as `(W, H)` and
returns half-width `anchor_scale * stride_x * 2^octave * sqrt(aspect) / 2 / H`,
half-height `anchor_scale * stride_y * 2^octave * (1/sqrt(aspect)) / 2 / W`,
x-centers `stride_x/2 + k*stride_x` (meshgrid flattened row-major, the x-list
tiled once per y-point) normalized by `H`, y-centers likewise normalized by
`W`; all normalized centers lie strictly inside `(0, 1)` (grid stops before
the image extent). -/
theorem claim_C3 (ops : NumOps) (sy sx oct a asc : ℚ) (W H : ℤ)
    (ha : 0 ≤ a) (hsq : ops.sqrt a ≠ 0) (hW : (W : ℚ) ≠ 0) (hH : (H : ℚ) ≠ 0) :
    compute_box_coordinates ops sy sx oct a asc (W, H) =
      (((List.replicate (arangeLen (sy / 2) (W : ℚ) sy)
          (arangeQ (sx / 2) (H : ℚ) sx)).flatten).map (fun v => v / (H : ℚ)),
       ((arangeQ (sy / 2) (W : ℚ) sy).flatMap (fun v =>
          List.replicate (arangeLen (sx / 2) (H : ℚ) sx) v)).map (fun v => v / (W : ℚ)),
       some (asc * sx * ops.exp2 oct * ops.sqrt a / 2 / (H : ℚ)),
       some (asc * sy * ops.exp2 oct * (1 / ops.sqrt a) / 2 / (W : ℚ))) ∧
    (0 < sx → 0 < (H : ℚ) →
      ∀ u ∈ (compute_box_coordinates ops sy sx oct a asc (W, H)).1, 0 < u ∧ u < 1) := by
  have heq := compute_box_coordinates_eq ops sy sx oct a asc W H hH hW
  constructor
  · rw [heq]
    rw [cfAnchorX, if_neg (by linarith), cfAnchorY, if_neg (by linarith), if_neg hsq]
  · intro hsx hH0 u hu
    rw [heq] at hu
    obtain ⟨v, hv, rfl⟩ := List.mem_map.mp hu
    obtain ⟨row, hrow, hvrow⟩ := List.mem_flatten.mp hv
    rw [List.eq_of_mem_replicate hrow] at hvrow
    obtain ⟨k, hk, rfl⟩ := List.mem_map.mp hvrow
    have hk' := List.mem_range.mp hk
    have hkc : (k : ℤ) < Int.ceil (((H : ℚ) - sx / 2) / sx) := by
      rw [arangeLen] at hk'
      omega
    have hkq : (k : ℚ) < ((H : ℚ) - sx / 2) / sx := by
      have hceil : (Int.ceil (((H : ℚ) - sx / 2) / sx) : ℚ) <
          ((H : ℚ) - sx / 2) / sx + 1 := Int.ceil_lt_add_one _
      have : (k : ℚ) ≤ (Int.ceil (((H : ℚ) - sx / 2) / sx) : ℚ) - 1 := by
        have : (k : ℤ) ≤ Int.ceil (((H : ℚ) - sx / 2) / sx) - 1 := by omega
        exact_mod_cast this
      linarith
  -- wait finish below
    have hvH : sx / 2 + (k : ℚ) * sx < (H : ℚ) := by
      have h' : (k : ℚ) * sx < (H : ℚ) - sx / 2 := (lt_div_iff hsx).mp hkq
      linarith
    constructor
    · positivity
    · rw [div_lt_one hH0]
      exact hvH

theorem claim_C3_witness : 0 < (1 : ℚ) / 4 ∧ (1 : ℚ) / 4 < 1 :=
  (claim_C3 cops 2 2 0 4 1 4 4 (by norm_num) (by with_unfolding_all decide) (by norm_num)
    (by norm_num)).2 (by norm_num) (by norm_num) (1 / 4) (by with_unfolding_all decide)

/-- C8 counterexample: with stride 8 exceeding the image extent 4 in both
dimensions, the center grid of `compute_box_coordinates` is empty — not a
single point as the claim states (`np.arange(4, 4, 8)` is empty since the
first sample `stride/2 = 4` already reaches the extent). -/
theorem claim_C8_counterexample :
    (compute_box_coordinates cops 8 8 0 1 1 ((4 : ℤ), (4 : ℤ))).1.length = 0 := by
  with_unfolding_all decide

/-- C8 (amended): the center grid of `compute_box_coordinates` has
`count(y) * count(x)` points where `count` is the `np.arange` length; when
the stride exceeds the image extent the corresponding count is one provided
half the stride is still below the extent (`stride < 2 * extent`), and zero
once half the stride reaches the extent. -/
theorem claim_C8_amended (ops : NumOps) (sy sx oct a asc : ℚ) (W H : ℤ) :
    ((compute_box_coordinates ops sy sx oct a asc (W, H)).1.length =
      arangeLen (sy / 2) (W : ℚ) sy * arangeLen (sx / 2) (H : ℚ) sx) ∧
    ((H : ℚ) < sx → sx < 2 * (H : ℚ) → arangeLen (sx / 2) (H : ℚ) sx = 1) ∧
    ((H : ℚ) < sx → 0 < (H : ℚ) → 2 * (H : ℚ) ≤ sx → arangeLen (sx / 2) (H : ℚ) sx = 0) := by
  refine ⟨?_, ?_, ?_⟩
  · show ((compute_box_coordinates ops sy sx oct a asc (W, H)).1).length = _
    unfold compute_box_coordinates
    simp only [List.length_map]
    rw [flatten_length_const _ (arangeQ (sx / 2) (H : ℚ) sx).length
      (fun m hm => by rw [List.eq_of_mem_replicate hm])]
    simp [arangeQ_length]
  · intro h1 h2
    have hH0 : 0 < (H : ℚ) := by linarith
    have hsx : 0 < sx := lt_trans hH0 h1
    have hq1 : (0 : ℚ) < ((H : ℚ) - sx / 2) / sx := by
      apply div_pos _ hsx
      linarith
    have hq2 : ((H : ℚ) - sx / 2) / sx ≤ 1 := by
      rw [div_le_one hsx]
      linarith
    have hceil : Int.ceil (((H : ℚ) - sx / 2) / sx) = 1 := by
      rw [Int.ceil_eq_iff]
      constructor
      · push_cast
        linarith
      · push_cast
        linarith
    rw [arangeLen, hceil]
    rfl
  · intro h1 hH0 h2
    have hsx : 0 < sx := by linarith
    have hq : ((H : ℚ) - sx / 2) / sx ≤ 0 := by
      apply div_nonpos_of_nonpos_of_nonneg _ (le_of_lt hsx)
      linarith
    have hceil : Int.ceil (((H : ℚ) - sx / 2) / sx) ≤ 0 := by
      rw [Int.ceil_le]
      exact_mod_cast hq
    rw [arangeLen]
    omega

theorem claim_C8_amended_witness :
    arangeLen ((6 : ℚ) / 2) (((4 : ℤ)) : ℚ) 6 = 1 ∧
    arangeLen ((9 : ℚ) / 2) (((4 : ℤ)) : ℚ) 9 = 0 :=
  ⟨(claim_C8_amended cops 6 6 0 1 1 4 4).2.1 (by norm_num) (by norm_num),
   (claim_C8_amended cops 9 9 0 1 1 4 4).2.2 (by norm_num) (by norm_num) (by norm_num)⟩

theorem mapExcept_mem {α β : Type} (f : α → Except String β) :
    ∀ (l : List α) (ys : List β), mapExcept f l = .ok ys →
      ∀ y ∈ ys, ∃ x ∈ l, f x = .ok y := by
  intro l
  induction l with
  | nil =>
      intro ys h y hy
      rw [mapExcept] at h
      cases h
      simp at hy
  | cons a t ih =>
      intro ys h y hy
      rw [mapExcept] at h
      cases hfa : f a with
      | error e => rw [hfa, except_error_bind] at h; cases h
      | ok b =>
          rw [hfa, except_bind_ok] at h
          cases hmt : mapExcept f t with
          | error e => rw [hmt, except_error_bind] at h; cases h
          | ok r =>
              rw [hmt, except_bind_ok] at h
              cases h
              rcases List.mem_cons.mp hy with hyb | hyr
              · exact ⟨a, by simp, by rw [hfa, hyb]⟩
              · obtain ⟨x, hx, hfx⟩ := ih r hmt y hyr
                exact ⟨x, by simp [hx], hfx⟩

theorem concatReshape_mem (ls : List (List Box4)) (bs : List Box4)
    (h : concatReshape ls = .ok bs) : ∀ b ∈ bs, ∃ l ∈ ls, b ∈ l := by
  intro b hb
  cases ls with
  | nil => rw [concatReshape] at h; cases h
  | cons l rest =>
      rw [concatReshape] at h
      by_cases hall : rest.all (fun r => r.length = l.length)
      · rw [if_pos hall] at h
        cases h
        obtain ⟨g, _, hg⟩ := List.mem_flatMap.mp hb
        obtain ⟨row, hrow, hrowg⟩ := List.mem_filterMap.mp hg
        exact ⟨row, hrow, List.getElem?_mem hrowg⟩
      · rw [if_neg hall] at h
        cases h

theorem generate_level_boxes_shape (ops : NumOps) (sy sx oc asp ascs : List ℚ)
    (sz : ℤ × ℤ) (comb : ℕ) :
    ∀ row ∈ generate_level_boxes ops sy sx oc asp ascs sz comb, ∀ b ∈ row,
      ∃ c1 c2 e1 e2, b = Box4.mk (fsub (some c1) e1) (fsub (some c2) e2)
        (fadd (some c1) e1) (fadd (some c2) e2) := by
  intro row hrow b hb
  rw [generate_level_boxes] at hrow
  obtain ⟨c, _, rfl⟩ := List.mem_map.mp hrow
  obtain ⟨p, _, rfl⟩ := List.mem_map.mp hb
  exact ⟨p.1, p.2, _, _, rfl⟩

theorem generate_anchors_boxes_shape (ops : NumOps) (fs : List (ℤ × ℤ))
    (minL maxL ns : ℕ) (A : List ℚ) (sz : ℤ × ℤ) (ascs : List ℚ) (anchors : List Box4)
    (h : generate_anchors ops fs minL maxL ns A sz ascs = .ok anchors) :
    ∀ b ∈ anchors, ∃ c1 c2 e1 e2, b = Box4.mk (fsub (some c1) e1) (fsub (some c2) e2)
      (fadd (some c1) e1) (fadd (some c2) e2) := by
  unfold generate_anchors at h
  cases hc : generate_configurations fs minL maxL ns A ascs with
  | error e => rw [hc, except_error_bind] at h; cases h
  | ok cfg =>
      rw [hc, except_bind_ok] at h
      obtain ⟨⟨Sy, Sx, Oc, As, Sc⟩, nl, comb⟩ := cfg
      dsimp only at h
      cases hm : mapExcept (fun level =>
          concatReshape (generate_level_boxes ops (Sy.getD level []) (Sx.getD level [])
            (Oc.getD level []) (As.getD level []) (Sc.getD level []) sz comb))
          (List.range nl.toNat) with
      | error e => rw [hm, except_error_bind] at h; cases h
      | ok boxes_all =>
          rw [hm, except_bind_ok] at h
          intro b hb
          have hanch : anchors = boxes_all.flatten := by
            cases boxes_all with
            | nil => rw [vstackList] at h; cases h
            | cons x xs =>
                rw [vstackList_ok _ (by simp)] at h
                cases h
                rfl
          rw [hanch] at hb
          obtain ⟨lvl, hlvl, hblvl⟩ := List.mem_flatten.mp hb
          obtain ⟨level, _, hok⟩ := mapExcept_mem _ _ _ hm lvl hlvl
          obtain ⟨row, hrowmem, hbrow⟩ := concatReshape_mem _ _ hok b hblvl
          exact generate_level_boxes_shape ops _ _ _ _ _ sz comb row hrowmem b hbrow

theorem roundtrip_pm_box (c1 c2 : ℚ) (e1 e2 : F) :
    Box4.mk
      (fsub (fdiv (fadd (fsub (some c1) e1) (fadd (some c1) e1)) (some 2))
        (fdiv (fsub (fadd (some c1) e1) (fsub (some c1) e1)) (some 2)))
      (fsub (fdiv (fadd (fsub (some c2) e2) (fadd (some c2) e2)) (some 2))
        (fdiv (fsub (fadd (some c2) e2) (fsub (some c2) e2)) (some 2)))
      (fadd (fdiv (fadd (fsub (some c1) e1) (fadd (some c1) e1)) (some 2))
        (fdiv (fsub (fadd (some c1) e1) (fsub (some c1) e1)) (some 2)))
      (fadd (fdiv (fadd (fsub (some c2) e2) (fadd (some c2) e2)) (some 2))
        (fdiv (fsub (fadd (some c2) e2) (fsub (some c2) e2)) (some 2))) =
    Box4.mk (fsub (some c1) e1) (fsub (some c2) e2)
      (fadd (some c1) e1) (fadd (some c2) e2) := by
  have h2 : (2 : ℚ) ≠ 0 := by norm_num
  cases e1 with
  | none => cases e2 with
    | none => simp [fadd, fsub, fdiv]
    | some v =>
        simp only [fadd, fsub, fdiv, if_neg h2, Box4.mk.injEq]
        refine ⟨by trivial, ?_, by trivial, ?_⟩
        · rw [show (c2 - v + (c2 + v)) / 2 - (c2 + v - (c2 - v)) / 2 = c2 - v by ring]
        · rw [show (c2 - v + (c2 + v)) / 2 + (c2 + v - (c2 - v)) / 2 = c2 + v by ring]
  | some u => cases e2 with
    | none =>
        simp only [fadd, fsub, fdiv, if_neg h2, Box4.mk.injEq]
        refine ⟨?_, by trivial, ?_, by trivial⟩
        · rw [show (c1 - u + (c1 + u)) / 2 - (c1 + u - (c1 - u)) / 2 = c1 - u by ring]
        · rw [show (c1 - u + (c1 + u)) / 2 + (c1 + u - (c1 - u)) / 2 = c1 + u by ring]
    | some v =>
        simp only [fadd, fsub, fdiv, if_neg h2, Box4.mk.injEq]
        refine ⟨?_, ?_, ?_, ?_⟩
        · rw [show (c1 - u + (c1 + u)) / 2 - (c1 + u - (c1 - u)) / 2 = c1 - u by ring]
        · rw [show (c2 - v + (c2 + v)) / 2 - (c2 + v - (c2 - v)) / 2 = c2 - v by ring]
        · rw [show (c1 - u + (c1 + u)) / 2 + (c1 + u - (c1 - u)) / 2 = c1 + u by ring]
        · rw [show (c2 - v + (c2 + v)) / 2 + (c2 + v - (c2 - v)) / 2 = c2 + v by ring]

/-- C9: converting the corner-form intermediate produced by
`generate_anchors` to center form (as `build_prior_boxes` does) and back to
corner form reproduces the original corners exactly in the rational model
(hence, in particular, within any floating-point tolerance such as 1e-6). -/
theorem claim_C9 (ops : NumOps) (fs : List (ℤ × ℤ)) (minL maxL ns : ℕ)
    (A : List ℚ) (sz : ℤ × ℤ) (ascs : List ℚ) (anchors : List Box4)
    (h : generate_anchors ops fs minL maxL ns A sz ascs = .ok anchors) :
    to_corner_form (to_center_form anchors) = anchors := by
  have hshape := generate_anchors_boxes_shape ops fs minL maxL ns A sz ascs anchors h
  rw [to_center_form, to_corner_form, List.map_map]
  conv_rhs => rw [← List.map_id anchors]
  apply List.map_congr_left
  intro b hb
  obtain ⟨c1, c2, e1, e2, rfl⟩ := hshape b hb
  exact roundtrip_pm_box c1 c2 e1 e2

theorem claim_C9_witness :
    to_corner_form (to_center_form
      [Box4.mk (some (-15 / 2)) (some (-3 / 2)) (some (17 / 2)) (some (5 / 2))]) =
      [Box4.mk (some (-15 / 2)) (some (-3 / 2)) (some (17 / 2)) (some (5 / 2))] :=
  claim_C9 cops (compute_feature_sizes (2, 2) 1) 1 1 1 [4] (2, 2) [8] _
    (by with_unfolding_all decide)

set_option maxRecDepth 40000 in
/-- C2 counterexample: at `max_level = 0` (an otherwise valid configuration)
`build_prior_boxes` returns no anchor sequence at all: `compute_feature_sizes`
builds a 1-D array and the `[:, 0]` indexing in `build_features` raises
`IndexError`, so the claimed ordering of "the anchor sequence returned" fails
at this input. -/
theorem claim_C2_counterexample :
    build_prior_boxes cops 0 0 2 [(1 : ℚ), 4] 1 ((8 : ℤ), 8) =
      .error "too many indices for array" := by
  with_unfolding_all decide

/-- C2 (amended): for every valid configuration with `max_level ≥ 1` (at
`max_level = 0` the call raises IndexError instead of returning anchors),
the anchor sequence is level-major, then grid-position-major (y-row-major),
then combination-minor with the combination index scale-major (each octave
repeated once per aspect ratio, the aspect list tiled once per scale) —
`build_prior_boxes` equals the explicitly nested-ordered `priorBoxesSpec`,
and the per-level octave/aspect parameter rows have exactly the
`[s0,s0,...,s1,s1,...]` / `[a0,a1,...,a0,a1,...]` shapes. -/
theorem claim_C2 (ops : NumOps) (minL maxL ns : ℕ) (A : List ℚ) (asc : ℚ)
    (Hi Wi : ℤ) (h1 : minL ≤ maxL) (hmax : 1 ≤ maxL) (h2 : 1 ≤ ns) (h3 : A ≠ [])
    (h4 : 1 ≤ Hi) (h5 : 1 ≤ Wi) :
    build_prior_boxes ops minL maxL ns A asc (Hi, Wi) =
      .ok (priorBoxesSpec ops minL maxL ns A asc Hi Wi) ∧
    build_octaves ns A ((maxL + 1 - minL : ℕ) : ℤ) =
      .ok (List.replicate (maxL + 1 - minL)
        ((List.range ns).flatMap (fun k => List.replicate A.length ((k : ℚ) / (ns : ℚ))))) ∧
    build_aspects A ns ((maxL + 1 - minL : ℕ) : ℤ) =
      .ok (List.replicate (maxL + 1 - minL) (List.flatten (List.replicate ns A))) := by
  have hcomb : 0 < ns * A.length := Nat.mul_pos (by omega) (List.length_pos.mpr h3)
  have hn : 0 < maxL + 1 - minL := by omega
  refine ⟨build_prior_boxes_eq ops minL maxL ns A asc Hi Wi h1 hmax h2 h3 h4 h5, ?_, ?_⟩
  · rw [build_octaves_eq ns A _ hn hcomb]
    congr 2
    rw [np_repeat, List.map_flatMap]
    apply flatMap_congr_left
    intro k _
    rw [List.map_replicate]
  · exact build_aspects_eq A ns _ hn hcomb

theorem claim_C2_witness :
    build_prior_boxes cops 1 1 2 [1, 4] 1 ((4 : ℤ), 4) =
      .ok (priorBoxesSpec cops 1 1 2 [1, 4] 1 4 4) ∧
    build_octaves 2 [(1 : ℚ), 4] ((1 + 1 - 1 : ℕ) : ℤ) =
      .ok (List.replicate (1 + 1 - 1)
        ((List.range 2).flatMap (fun k =>
          List.replicate ([(1 : ℚ), 4]).length ((k : ℚ) / (2 : ℚ))))) ∧
    build_aspects [(1 : ℚ), 4] 2 ((1 + 1 - 1 : ℕ) : ℤ) =
      .ok (List.replicate (1 + 1 - 1) (List.flatten (List.replicate 2 [(1 : ℚ), 4]))) :=
  claim_C2 cops 1 1 2 [1, 4] 1 4 4 (by decide) (by decide) (by decide) (by decide)
    (by decide) (by decide)

theorem flatMap_length_sum {α β : Type} (l : List α) (f : α → List β) :
    (l.flatMap f).length = (l.map (fun a => (f a).length)).sum := by
  rw [List.flatMap_def, List.length_flatten, List.map_map]
  rfl

theorem length_flatMap_const {α β : Type} (l : List α) (f : α → List β) (c : ℕ)
    (h : ∀ a ∈ l, (f a).length = c) : (l.flatMap f).length = l.length * c := by
  rw [List.flatMap_def, flatten_length_const _ c
    (by intro m hm; obtain ⟨a, ha, rfl⟩ := List.mem_map.mp hm; exact h a ha),
    List.length_map]

theorem priorBoxesSpec_length (ops : NumOps) (minL maxL ns : ℕ) (A : List ℚ)
    (asc : ℚ) (Hi Wi : ℤ) :
    (priorBoxesSpec ops minL maxL ns A asc Hi Wi).length =
      ((List.range (maxL + 1 - minL)).map (fun i =>
        (featIter (Hi, Wi) (minL + i)).1.toNat * (featIter (Hi, Wi) (minL + i)).2.toNat *
          (ns * A.length))).sum := by
  simp only [priorBoxesSpec]
  rw [flatMap_length_sum]
  congr 1
  apply List.map_congr_left
  intro i _
  rw [length_flatMap_const _ _
      ((featIter (Hi, Wi) (minL + i)).2.toNat * (ns * A.length))
    (by
      intro gy _
      rw [length_flatMap_const _ _ (ns * A.length)
        (by
          intro gx _
          rw [length_flatMap_const _ _ A.length
            (by intro k _; rw [List.length_map])]
          rw [List.length_range])]
      rw [List.length_range])]
  rw [List.length_range, ← Nat.mul_assoc]

/-- C1 counterexample: at `max_level = 0` with all other inputs valid,
`build_prior_boxes` raises `IndexError` in `build_features` (1-D
feature-size array), so no box count is returned at all — refuting the
claim's count equality "for all valid inputs (min_level <= max_level, ...)". -/
theorem claim_C1_counterexample :
    build_prior_boxes cops 0 0 1 [(1 : ℚ)] 1 ((4 : ℤ), 4) =
      .error "too many indices for array" := by
  with_unfolding_all decide

/-- C1 (amended): for every valid configuration with `max_level ≥ 1` (at
`max_level = 0` the call raises IndexError and returns nothing), the number
of prior boxes equals the sum over levels of (grid points at that level) x
num_scales x len(aspect_ratios); in the known 512x512 scenario the level-3
feature size is (64, 64), there are 9 scale/aspect combinations, and the
total is 49104. -/
theorem claim_C1 :
    (∀ (ops : NumOps) (minL maxL ns : ℕ) (A : List ℚ) (asc : ℚ) (Hi Wi : ℤ),
      minL ≤ maxL → 1 ≤ maxL → 1 ≤ ns → A ≠ [] → 1 ≤ Hi → 1 ≤ Wi →
      (build_prior_boxes ops minL maxL ns A asc (Hi, Wi)).map List.length =
        .ok (((List.range (maxL + 1 - minL)).map (fun i =>
          (featIter (Hi, Wi) (minL + i)).1.toNat * (featIter (Hi, Wi) (minL + i)).2.toNat *
            (ns * A.length))).sum)) ∧
    featIter (512, 512) 3 = (64, 64) ∧
    3 * ([(1 : ℚ), 2, 1 / 2].length) = 9 ∧
    (build_prior_boxes cops 3 7 3 [1, 2, 1 / 2] 4 ((512 : ℤ), 512)).map List.length =
      .ok 49104 := by
  have hgen : ∀ (ops : NumOps) (minL maxL ns : ℕ) (A : List ℚ) (asc : ℚ) (Hi Wi : ℤ),
      minL ≤ maxL → 1 ≤ maxL → 1 ≤ ns → A ≠ [] → 1 ≤ Hi → 1 ≤ Wi →
      (build_prior_boxes ops minL maxL ns A asc (Hi, Wi)).map List.length =
        .ok (((List.range (maxL + 1 - minL)).map (fun i =>
          (featIter (Hi, Wi) (minL + i)).1.toNat * (featIter (Hi, Wi) (minL + i)).2.toNat *
            (ns * A.length))).sum) := by
    intro ops minL maxL ns A asc Hi Wi h1 hmax h2 h3 h4 h5
    rw [build_prior_boxes_eq ops minL maxL ns A asc Hi Wi h1 hmax h2 h3 h4 h5]
    rw [show (Except.ok (priorBoxesSpec ops minL maxL ns A asc Hi Wi) :
      Except String (List Box4)).map List.length =
      .ok (priorBoxesSpec ops minL maxL ns A asc Hi Wi).length from rfl]
    rw [priorBoxesSpec_length]
  refine ⟨hgen, by decide, by decide, ?_⟩
  rw [hgen cops 3 7 3 [1, 2, 1 / 2] 4 512 512 (by decide) (by decide) (by decide)
    (by decide) (by decide) (by decide)]
  decide

theorem claim_C1_witness :
    (build_prior_boxes cops 0 1 1 [(1 : ℚ)] 1 ((4 : ℤ), 4)).map List.length =
      .ok (((List.range (1 + 1 - 0)).map (fun i =>
        (featIter ((4 : ℤ), (4 : ℤ)) (0 + i)).1.toNat *
          (featIter ((4 : ℤ), (4 : ℤ)) (0 + i)).2.toNat * (1 * [(1 : ℚ)].length))).sum) :=
  claim_C1.1 cops 0 1 1 [1] 1 4 4 (by decide) (by decide) (by decide) (by decide)
    (by decide) (by decide)

theorem priorBoxesSpec_mem (ops : NumOps) (minL maxL ns : ℕ) (A : List ℚ) (asc : ℚ)
    (Hi Wi : ℤ) (b : Box4) (hb : b ∈ priorBoxesSpec ops minL maxL ns A asc Hi Wi) :
    ∃ (i gy gx k : ℕ) (a : ℚ), i < maxL + 1 - minL ∧
      gy < (featIter (Hi, Wi) (minL + i)).1.toNat ∧
      gx < (featIter (Hi, Wi) (minL + i)).2.toNat ∧ k < ns ∧ a ∈ A ∧
      b = Box4.mk
        (onSome (cfAnchorX ops a ((k : ℚ) / (ns : ℚ)) asc
            ((Wi : ℚ) / ((featIter (Hi, Wi) (minL + i)).2 : ℚ)) (Wi : ℚ))
          ((((Wi : ℚ) / ((featIter (Hi, Wi) (minL + i)).2 : ℚ)) / 2 +
            (gx : ℚ) * ((Wi : ℚ) / ((featIter (Hi, Wi) (minL + i)).2 : ℚ))) / (Wi : ℚ)))
        (onSome (cfAnchorY ops a ((k : ℚ) / (ns : ℚ)) asc
            ((Hi : ℚ) / ((featIter (Hi, Wi) (minL + i)).1 : ℚ)) (Hi : ℚ))
          ((((Hi : ℚ) / ((featIter (Hi, Wi) (minL + i)).1 : ℚ)) / 2 +
            (gy : ℚ) * ((Hi : ℚ) / ((featIter (Hi, Wi) (minL + i)).1 : ℚ))) / (Hi : ℚ)))
        ((cfAnchorX ops a ((k : ℚ) / (ns : ℚ)) asc
            ((Wi : ℚ) / ((featIter (Hi, Wi) (minL + i)).2 : ℚ)) (Wi : ℚ)).map (fun v => v * 2))
        ((cfAnchorY ops a ((k : ℚ) / (ns : ℚ)) asc
            ((Hi : ℚ) / ((featIter (Hi, Wi) (minL + i)).1 : ℚ)) (Hi : ℚ)).map
          (fun v => v * 2)) := by
  simp only [priorBoxesSpec] at hb
  obtain ⟨i, hi, hb⟩ := List.mem_flatMap.mp hb
  obtain ⟨gy, hgy, hb⟩ := List.mem_flatMap.mp hb
  obtain ⟨gx, hgx, hb⟩ := List.mem_flatMap.mp hb
  obtain ⟨k, hk, hb⟩ := List.mem_flatMap.mp hb
  obtain ⟨a, ha, rfl⟩ := List.mem_map.mp hb
  exact ⟨i, gy, gx, k, a, List.mem_range.mp hi, List.mem_range.mp hgy,
    List.mem_range.mp hgx, List.mem_range.mp hk, ha, rfl⟩

theorem center_bound (D f : ℤ) (g : ℕ) (hf : 1 ≤ f) (hD : 1 ≤ D) (hg : g < f.toNat) :
    0 ≤ (((D : ℚ) / (f : ℚ)) / 2 + (g : ℚ) * ((D : ℚ) / (f : ℚ))) / (D : ℚ) ∧
    (((D : ℚ) / (f : ℚ)) / 2 + (g : ℚ) * ((D : ℚ) / (f : ℚ))) / (D : ℚ) ≤ 1 := by
  have hD0 : (0 : ℚ) < (D : ℚ) := by exact_mod_cast (by omega : (0 : ℤ) < D)
  have hf0 : (0 : ℚ) < (f : ℚ) := by exact_mod_cast (by omega : (0 : ℤ) < f)
  constructor
  · positivity
  · rw [div_le_one hD0]
    have hgf : (g : ℚ) ≤ (f : ℚ) - 1 := by
      have hz : (g : ℤ) ≤ f - 1 := by omega
      exact_mod_cast hz
    have key : ((D : ℚ) / (f : ℚ)) / 2 + (g : ℚ) * ((D : ℚ) / (f : ℚ)) =
        ((D : ℚ) * (1 / 2 + (g : ℚ))) / (f : ℚ) := by ring
    rw [key, div_le_iff hf0]
    nlinarith

theorem copsSqrtPos (q : ℚ) (hq : 0 < q) : 0 < cops.sqrt q := by
  show 0 < (if q ≤ 0 then 0 else if qsqrt q * qsqrt q = q then qsqrt q else 1)
  rw [if_neg (by linarith)]
  by_cases h : qsqrt q * qsqrt q = q
  · rw [if_pos h]
    have hnn : 0 ≤ qsqrt q := by
      rw [qsqrt]
      positivity
    rcases eq_or_lt_of_le hnn with heq | hlt
    · exfalso
      rw [← heq] at h
      simp at h
      linarith [h ▸ hq]
    · exact hlt
  · rw [if_neg h]
    norm_num

set_option maxRecDepth 40000 in
/-- C10 counterexample: the claim asserts "raises no exception" for every
`0 ≤ min_level ≤ max_level`, but at `max_level = 0` (with positive aspects,
positive anchor scale, valid image) `build_prior_boxes` raises `IndexError`
in `build_features`, because `compute_feature_sizes` returns a 1-D array
and the `[:, 0]` indexing fails. -/
theorem claim_C10_counterexample :
    build_prior_boxes cops 0 0 1 [(1 : ℚ)] 1 ((6 : ℤ), 6) =
      .error "too many indices for array" := by
  with_unfolding_all decide

/-- C10 (amended): for every configuration with `min_level ≤ max_level`,
`max_level ≥ 1` (at `max_level = 0` the call raises IndexError),
`num_scales ≥ 1`, a non-empty list of strictly positive aspect ratios, a
positive anchor scale and image dimensions at least 1 (and numeric
primitives whose square root of a positive number is positive, as the real
one is), `build_prior_boxes` returns normally and every coordinate of every
returned box is finite. -/
theorem claim_C10 (ops : NumOps) (minL maxL ns : ℕ) (A : List ℚ) (asc : ℚ)
    (Hi Wi : ℤ) (h1 : minL ≤ maxL) (hmax : 1 ≤ maxL) (h2 : 1 ≤ ns) (h3 : A ≠ [])
    (h4 : 1 ≤ Hi) (h5 : 1 ≤ Wi) (hA : ∀ a ∈ A, 0 < a) (hasc : 0 < asc)
    (hops : ∀ q, 0 < q → 0 < ops.sqrt q) :
    (build_prior_boxes ops minL maxL ns A asc (Hi, Wi)).map allFinite = .ok true := by
  rw [build_prior_boxes_eq ops minL maxL ns A asc Hi Wi h1 hmax h2 h3 h4 h5]
  have hAll : allFinite (priorBoxesSpec ops minL maxL ns A asc Hi Wi) = true := by
    rw [allFinite, List.all_eq_true]
    intro b hb
    obtain ⟨i, gy, gx, k, a, hi, hgy, hgx, hk, ha, rfl⟩ :=
      priorBoxesSpec_mem ops minL maxL ns A asc Hi Wi b hb
    have hapos := hA a ha
    have hsq := hops a hapos
    simp [onSome, cfAnchorX, cfAnchorY, if_neg (by linarith : ¬ a < 0), hsq.ne']
  show Except.ok (allFinite (priorBoxesSpec ops minL maxL ns A asc Hi Wi)) = .ok true
  rw [hAll]

theorem claim_C10_witness :
    (build_prior_boxes cops 1 1 1 [(1 : ℚ)] 1 ((4 : ℤ), 4)).map allFinite = .ok true :=
  claim_C10 cops 1 1 1 [1] 1 4 4 (by decide) (by decide) (by decide) (by decide) (by decide)
    (by decide) (by intro a ha; rw [List.mem_singleton.mp ha]; norm_num) (by norm_num)
    (fun q hq => copsSqrtPos q hq)

set_option maxRecDepth 40000 in
/-- C6 counterexample: with aspect ratio -1 (a non-positive aspect) and an
otherwise valid configuration (`max_level = 1`, so the IndexError path is
not taken), `build_prior_boxes` does NOT raise a numeric-domain error — it
returns normally, and every coordinate of the 4 returned boxes is
non-finite (`np.sqrt(-1)` is NaN, propagated silently), contradicting the
claim. -/
theorem claim_C6_counterexample :
    build_prior_boxes cops 1 1 1 [-1] 1 ((4 : ℤ), 4) =
      .ok (List.replicate 4 (Box4.mk none none none none)) := by
  with_unfolding_all decide

/-- C6 (amended): with every aspect ratio negative and `max_level ≥ 1`
(at `max_level = 0` an unrelated IndexError fires first), anchor
construction raises no numeric-domain error: it returns `ok`, and every
coordinate of every returned box is non-finite (NaN), propagated silently
into the anchor array. -/
theorem claim_C6_amended (ops : NumOps) (minL maxL ns : ℕ) (A : List ℚ) (asc : ℚ)
    (Hi Wi : ℤ) (h1 : minL ≤ maxL) (hmax : 1 ≤ maxL) (h2 : 1 ≤ ns) (h3 : A ≠ [])
    (h4 : 1 ≤ Hi) (h5 : 1 ≤ Wi) (hA : ∀ a ∈ A, a < 0) :
    (build_prior_boxes ops minL maxL ns A asc (Hi, Wi)).map allNonFinite = .ok true := by
  rw [build_prior_boxes_eq ops minL maxL ns A asc Hi Wi h1 hmax h2 h3 h4 h5]
  have hAll : allNonFinite (priorBoxesSpec ops minL maxL ns A asc Hi Wi) = true := by
    rw [allNonFinite, List.all_eq_true]
    intro b hb
    obtain ⟨i, gy, gx, k, a, hi, hgy, hgx, hk, ha, rfl⟩ :=
      priorBoxesSpec_mem ops minL maxL ns A asc Hi Wi b hb
    have haneg := hA a ha
    simp [onSome, cfAnchorX, cfAnchorY, if_pos haneg]
  show Except.ok (allNonFinite (priorBoxesSpec ops minL maxL ns A asc Hi Wi)) = .ok true
  rw [hAll]

theorem claim_C6_amended_witness :
    (build_prior_boxes cops 1 1 1 [(-1 : ℚ)] 1 ((4 : ℤ), 4)).map allNonFinite = .ok true :=
  claim_C6_amended cops 1 1 1 [-1] 1 4 4 (by decide) (by decide) (by decide) (by decide)
    (by decide) (by decide) (by intro a ha; rw [List.mem_singleton.mp ha]; norm_num)

set_option maxRecDepth 100000 in
/-- C7 counterexample: with `anchor_scale = 8` and aspect ratio 4 on a 16x16
image at level 1, the first output box of `build_prior_boxes` (center form)
has width 2 — twice the image extent — so the coordinates do not lie in
`[-eps, 1+eps]` for any small slack (e.g. eps = 1/100). -/
theorem claim_C7_counterexample :
    (build_prior_boxes cops 1 1 1 [4] 8 ((16 : ℤ), 16)).map
        (fun bs => bs.getD 0 (Box4.mk none none none none)) =
      .ok (Box4.mk (some (1 / 16)) (some (1 / 16)) (some 2) (some (1 / 2))) ∧
    ¬ ((2 : ℚ) ≤ 1 + 1 / 100) := by
  constructor
  · with_unfolding_all decide
  · norm_num

/-- C7 (amended): the center coordinates (first two entries of each
center-form box) always lie within [0, 1]; the width/height entries carry
no such bound (they can reach twice the image size, as the counterexample
shows). -/
theorem claim_C7_amended (ops : NumOps) (minL maxL ns : ℕ) (A : List ℚ) (asc : ℚ)
    (Hi Wi : ℤ) (h1 : minL ≤ maxL) (hmax : 1 ≤ maxL) (h2 : 1 ≤ ns) (h3 : A ≠ [])
    (h4 : 1 ≤ Hi) (h5 : 1 ≤ Wi) :
    ∀ bs, build_prior_boxes ops minL maxL ns A asc (Hi, Wi) = .ok bs →
      ∀ b ∈ bs, (∀ q, b.x0 = some q → 0 ≤ q ∧ q ≤ 1) ∧
        (∀ q, b.x1 = some q → 0 ≤ q ∧ q ≤ 1) := by
  intro bs hbs b hb
  rw [build_prior_boxes_eq ops minL maxL ns A asc Hi Wi h1 hmax h2 h3 h4 h5] at hbs
  cases hbs
  obtain ⟨i, gy, gx, k, a, hi, hgy, hgx, hk, ha, rfl⟩ :=
    priorBoxesSpec_mem ops minL maxL ns A asc Hi Wi b hb
  have hfpos := featIter_pos (p := (Hi, Wi)) h4 h5 (minL + i)
  constructor
  · intro q hq
    rw [show (Box4.mk _ _ _ _).x0 = _ from rfl] at hq
    cases hax : cfAnchorX ops a ((k : ℚ) / (ns : ℚ)) asc
        ((Wi : ℚ) / ((featIter (Hi, Wi) (minL + i)).2 : ℚ)) (Wi : ℚ) with
    | none => rw [onSome, hax] at hq; cases hq
    | some v =>
        rw [onSome, hax] at hq
        cases hq
        exact center_bound Wi _ gx hfpos.2 h5 hgx
  · intro q hq
    rw [show (Box4.mk _ _ _ _).x1 = _ from rfl] at hq
    cases hay : cfAnchorY ops a ((k : ℚ) / (ns : ℚ)) asc
        ((Hi : ℚ) / ((featIter (Hi, Wi) (minL + i)).1 : ℚ)) (Hi : ℚ) with
    | none => rw [onSome, hay] at hq; cases hq
    | some v =>
        rw [onSome, hay] at hq
        cases hq
        exact center_bound Hi _ gy hfpos.1 h4 hgy

theorem claim_C7_amended_witness : 0 ≤ (1 : ℚ) / 4 ∧ (1 : ℚ) / 4 ≤ 1 := by
  have hbs : build_prior_boxes cops 1 1 1 [(1 : ℚ)] 1 ((4 : ℤ), 4) =
      .ok (priorBoxesSpec cops 1 1 1 [1] 1 4 4) :=
    build_prior_boxes_eq cops 1 1 1 [1] 1 4 4 (by decide) (by decide) (by decide)
      (by decide) (by decide) (by decide)
  have hmem : Box4.mk (some (1 / 4)) (some (1 / 4)) (some (1 / 2)) (some (1 / 2)) ∈
      priorBoxesSpec cops 1 1 1 [1] 1 4 4 := by
    with_unfolding_all decide
  exact (claim_C7_amended cops 1 1 1 [1] 1 4 4 (by decide) (by decide) (by decide)
      (by decide) (by decide) (by decide) (priorBoxesSpec cops 1 1 1 [1] 1 4 4) hbs
      (Box4.mk (some (1 / 4)) (some (1 / 4)) (some (1 / 2)) (some (1 / 2))) hmem).1
    (1 / 4) rfl
